import Mathlib

/-!
# SigMF file input: capture timeline and playback controller

A shallow embedding of `plugins/samplesource/sigmffileinput/sigmffileinput.cpp`.

* `uint64_t` values are natural numbers; every operation that can leave the
  range is reduced modulo `2^64` where the source computes it.
* Member functions of `SigMFFileInput` are functions on a record holding the
  members they read and write.
* An operation whose behaviour the language leaves undefined (indexing a
  container out of range, `back()` of an empty container, integer division by
  zero, the end of a function that returns a value reached without a `return`
  statement) makes the embedded function return `none`.
* A `double` is the rational number it holds.
-/

namespace SigMF

/-! ## Machine integers -/

/-- Number of values of a `uint64_t`. -/
def U64 : Nat := 18446744073709551616

/-- Number of values of an `unsigned int`. -/
def U32 : Nat := 4294967296

/-- Conversion of a signed integer to `uint64_t` (value modulo `2^64`). -/
def toU64 (z : Int) : Nat := (z % (U64 : Int)).toNat

/-- Conversion of a signed integer to `unsigned int` (value modulo `2^32`). -/
def toU32 (z : Int) : Nat := (z % (U32 : Int)).toNat

/-- Subtraction of two `uint64_t` values. -/
def subU64 (a b : Nat) : Nat := (a % U64 + (U64 - b % U64)) % U64

/-- Addition of two `uint64_t` values. -/
def addU64 (a b : Nat) : Nat := (a + b) % U64

/-- Multiplication of two `uint64_t` values. -/
def mulU64 (a b : Nat) : Nat := (a * b) % U64

/-! ## Ordered lookup in the list of capture starts -/

/-- Loop of `std::upper_bound` over `v[first, first + len)`: halve the range
until it is empty. `fuel` bounds the number of iterations; the range shrinks
at every iteration, so `len` iterations are enough. Inside the loop
`middle < v.length`, the default of `getD` is never read. -/
def upperBoundLoop (v : List Nat) (val : Nat) : Nat → Nat → Nat → Nat
  | 0, first, _ => first
  | fuel + 1, first, len =>
    if 0 < len then
      let half := len / 2
      let middle := first + half
      if val < v.getD middle 0 then
        upperBoundLoop v val fuel first half
      else
        upperBoundLoop v val fuel (middle + 1) (len - half - 1)
    else first

/-- Position returned by `std::upper_bound(v.begin(), v.end(), val)`, as a
distance from `v.begin()`. -/
def upper_bound (v : List Nat) (val : Nat) : Nat :=
  upperBoundLoop v val v.length 0 v.length

/-- Embedding of `SigMFFileInput::getTrackIndex` over the member
`m_captureStarts`: `(it - m_captureStarts.begin()) - 1`. -/
def getTrackIndex (m_captureStarts : List Nat) (sampleIndex : Nat) : Int :=
  (upper_bound m_captureStarts sampleIndex : Int) - 1

/-- The fields of one capture descriptor of the metadata record that
`extractCaptures` reads: `core::DescrT` gives `frequency`, `sample_start`,
`length` and `datetime`, `sdrangel::DescrT` gives `sample_rate` and `tsms`.
`datetime_ms` stands for the millisecond timestamp that the `datetime`
branch computes (regular expression, calendar conversion and, on failure,
the clock), which is an input of the model. The unsigned fields are
`uint64_t` values. -/
structure CaptureDescr where
  frequency : Nat := 0
  sample_start : Nat := 0
  length : Nat := 0
  sample_rate : Int := 0
  tsms : Nat := 0
  datetime_ms : Nat := 0
deriving DecidableEq, Repr

/-- The part of the metadata record read by `extractCaptures` and
`extractMeta`: the global `core:sample_rate`, a `double` in the source and
here the rational number that the `double` holds, the ordered captures, and the
global `core:datatype`, `core:sha512` and `sdrangel:version`. The free-text
fields of the global descriptor, which are only copied, are left out. -/
structure MetaRecord where
  global_sample_rate : ℚ := 0
  captures : List CaptureDescr := []
  datatype : String := ""
  sha512 : String := ""
  sdrangel_version : String := ""
deriving DecidableEq, Repr

/-- One entry of `m_captures` (`SigMFFileCapture`): all fields are
`uint64_t` but the sample rate, an `unsigned int`. -/
structure SigMFFileCapture where
  m_tsms : Nat := 0
  m_centerFrequency : Nat := 0
  m_sampleStart : Nat := 0
  m_length : Nat := 0
  m_cumulativeTime : Nat := 0
  m_sampleRate : Nat := 0
deriving DecidableEq, Repr

/-- Modelled from the spec: the streaming worker `SigMFFileInputThread`,
whose source file is not part of the sources at hand. The record holds what
the controller sets through `startWork()/stopWork()`, `setTrackIndex(i)`,
`setTotalSamples(n)`, `setSamplesCount(n)` (cursor override) and
`setAccelerationFactor(f)`, and reads through `isRunning()`. -/
structure SigMFFileInputThread where
  m_running : Bool := false
  m_trackIndex : Int := 0
  m_samplesCount : Nat := 0
  m_totalSamples : Nat := 0
  m_accelerationFactor : Int := 1
deriving DecidableEq, Repr

/-- The record `SigMFFileDataType` held in `m_metaInfo.m_dataType`. The
defaults stand for a record that has not been loaded. -/
structure SigMFFileDataType where
  m_complex : Bool := true
  m_floatingPoint : Bool := false
  m_signed : Bool := true
  m_bigEndian : Bool := false
  m_swapIQ : Bool := false
  m_sampleBits : Int := 32
deriving DecidableEq, Repr

/-- A notification `DSPSignalNotification(sampleRate, centerFrequency)` pushed
to the input queue of the device engine: the signal parameters announced
downstream. -/
structure DSPSignalNotification where
  sampleRate : Int
  centerFrequency : Nat
deriving DecidableEq, Repr

/-- The settings record `SigMFFileInputSettings`. -/
structure SigMFFileInputSettings where
  m_fileName : String
  m_accelerationFactor : Int
  m_trackLoop : Bool
  m_fullLoop : Bool
deriving DecidableEq, Repr

/-- The members of `SigMFFileInput` that the embedded member functions read
or write. The data stream `m_dataStream` is its open flag and its read
position in bytes (`tellg()`); `m_totalSamples` is `m_metaInfo.m_totalSamples`
and `m_dataTypeStr`, `m_dataType`, `m_coreSampleRate`, `m_sha512`,
`m_sdrAngelVersion`, `m_nbCaptures` and `m_totalTimeMs` are the members of
`m_metaInfo` of these names; the type of `m_coreSampleRate` is declared
outside the sources at hand and the member is taken to hold the rate as the
metadata record gives it; `m_sampleFifoSize` is the size last given to
`m_sampleFifo`; `m_deviceEngineInputQueue` lists, oldest first, the
notifications pushed to `m_deviceAPI->getDeviceEngineInputMessageQueue()`.
Defaults are the constructor's initialisers. -/
structure SigMFFileInput where
  m_settings : SigMFFileInputSettings
  m_trackMode : Bool := false
  m_currentTrackIndex : Int := 0
  m_dataStreamOpen : Bool := false
  m_dataStreamPos : Nat := 0
  m_fileInputThread : Option SigMFFileInputThread := none
  m_deviceDescription : String := ""
  m_sampleFifoSize : Nat := 0
  m_sampleRate : Int := 48000
  m_sampleBytes : Nat := 1
  m_centerFrequency : Nat := 0
  m_totalSamples : Nat := 0
  m_captures : List SigMFFileCapture := []
  m_captureStarts : List Nat := []
  m_crcAvailable : Bool := false
  m_crcOK : Bool := false
  m_recordLengthOK : Bool := false
  m_dataTypeStr : String := ""
  m_dataType : SigMFFileDataType := {}
  m_coreSampleRate : ℚ := 0
  m_sha512 : String := ""
  m_sdrAngelVersion : String := ""
  m_nbCaptures : Nat := 0
  m_totalTimeMs : Nat := 0
  m_deviceEngineInputQueue : List DSPSignalNotification := []
deriving DecidableEq, Repr

/-! ## Timeline construction -/

/-- Local variables of the loop of `extractCaptures` together with the two
members the loop appends to. -/
structure ExtractLoop where
  m_captures : List SigMFFileCapture
  m_captureStarts : List Nat
  lastSampleStart : Nat
  i : Nat
  cumulativeTime : Nat
deriving DecidableEq, Repr

/-- Conversion of a `double` that is not negative to `unsigned int`: the
value with its fractional part discarded. The conversion is undefined when
that value does not fit an `unsigned int`; the result is then 0, the rate on
which the loop of `extractCaptures`, which divides by the stored rate, is
undefined as well, so that `extractCaptures` is `none` on such a rate. -/
def doubleToU32 (x : ℚ) : Nat :=
  if ⌊x⌋.toNat < U32 then ⌊x⌋.toNat else 0

/-- Conversion of a `double` to an integer: the value with its fractional
part discarded. The integer type of the parameter of the notification that
takes the value is declared outside the sources at hand and is not bounded
here. -/
def doubleToInt (x : ℚ) : Int :=
  if x < 0 then -⌊-x⌋ else ⌊x⌋

/-- Sample rate stored for a capture: the absolute value of the global rate,
a `double`, when the capture has no rate of its own, else its own rate, an
`int`; both converted to `unsigned int`. -/
def captureSampleRate (globalSampleRate : ℚ) (it : CaptureDescr) : Nat :=
  if it.sample_rate = 0 then
    doubleToU32 (if globalSampleRate < 0 then -globalSampleRate else globalSampleRate)
  else
    toU32 it.sample_rate

/-- The capture appended by `m_captures.push_back(SigMFFileCapture())` once
the loop body has filled its fields. -/
def pushedCapture (globalSampleRate : ℚ) (cumulativeTime : Nat) (it : CaptureDescr) :
    SigMFFileCapture :=
  { m_centerFrequency := it.frequency
    m_sampleStart := it.sample_start
    m_cumulativeTime := cumulativeTime
    m_sampleRate := captureSampleRate globalSampleRate it
    m_tsms := if it.tsms ≠ 0 then it.tsms else it.datetime_ms
    m_length := it.length }

/-- The conditional of the loop body that resolves the length of the previous
capture: `if ((i != 0) && (m_captures.at(i-1).m_length == 0))`. Returns the
captures and `lastSampleStart` after it; `none` when `at` is out of range. -/
def resolvePrevious (caps : List SigMFFileCapture) (i lastSampleStart : Nat) :
    Option (List SigMFFileCapture × Nat) :=
  if i ≠ 0 then
    match caps[i - 1]? with
    | none => none
    | some prev =>
      if prev.m_length = 0 then
        match caps[i]? with
        | none => none
        | some cur =>
          some (caps.set (i - 1) { prev with m_length := subU64 cur.m_sampleStart lastSampleStart },
                cur.m_sampleStart)
      else some (caps, lastSampleStart)
  else some (caps, lastSampleStart)

/-- One iteration of the loop of `extractCaptures` for the capture
descriptor `it`. The result is `none` when the iteration divides by a zero
sample rate. -/
def extractCapturesBody (globalSampleRate : ℚ) (s : ExtractLoop) (it : CaptureDescr) :
    Option ExtractLoop :=
  let caps := s.m_captures ++ [pushedCapture globalSampleRate s.cumulativeTime it]
  let starts := s.m_captureStarts ++ [it.sample_start]
  match resolvePrevious caps s.i s.lastSampleStart with
  | none => none
  | some (caps1, last1) =>
    match caps1.getLast? with
    | none => none
    | some back =>
      if back.m_sampleRate = 0 then none
      else
        some { m_captures := caps1
               m_captureStarts := starts
               lastSampleStart := last1
               i := s.i + 1
               cumulativeTime :=
                 addU64 s.cumulativeTime (mulU64 back.m_length 1000 / back.m_sampleRate) }

/-- Embedding of `SigMFFileInput::extractCaptures`: `m_captures` is cleared,
the loop runs over the captures of the record in their order, and the last
capture's zero length is resolved against `m_totalSamples`. `m_captureStarts`
is appended to as the source does. The result is `none` when the record has
no capture (`back()` of an empty list) or a capture has a zero sample rate. -/
def extractCaptures (self : SigMFFileInput) (metaRecord : MetaRecord) : Option SigMFFileInput :=
  let init : ExtractLoop :=
    { m_captures := []
      m_captureStarts := self.m_captureStarts
      lastSampleStart := 0
      i := 0
      cumulativeTime := 0 }
  match metaRecord.captures.foldlM (extractCapturesBody metaRecord.global_sample_rate) init with
  | none => none
  | some s =>
    match s.m_captures.getLast? with
    | none => none
    | some back =>
      if back.m_length = 0 then
        some { self with
          m_captures := s.m_captures.set (s.m_captures.length - 1)
            { back with m_length := subU64 self.m_totalSamples back.m_sampleStart }
          m_captureStarts := s.m_captureStarts }
      else
        some { self with m_captures := s.m_captures, m_captureStarts := s.m_captureStarts }

/-! ## The streaming worker -/

/-- Modelled from the spec: `startWork()` of the worker. -/
def SigMFFileInputThread.startWork (t : SigMFFileInputThread) : SigMFFileInputThread :=
  { t with m_running := true }

/-- Modelled from the spec: `stopWork()` of the worker. -/
def SigMFFileInputThread.stopWork (t : SigMFFileInputThread) : SigMFFileInputThread :=
  { t with m_running := false }

/-- Modelled from the spec: `isRunning()` of the worker. -/
def SigMFFileInputThread.isRunning (t : SigMFFileInputThread) : Bool :=
  t.m_running

/-- Modelled from the spec: `setTrackIndex(i)` of the worker. -/
def SigMFFileInputThread.setTrackIndex (t : SigMFFileInputThread) (i : Int) :
    SigMFFileInputThread :=
  { t with m_trackIndex := i }

/-- Modelled from the spec: `setSamplesCount(n)` of the worker, the override
of its sample cursor. -/
def SigMFFileInputThread.setSamplesCount (t : SigMFFileInputThread) (n : Nat) :
    SigMFFileInputThread :=
  { t with m_samplesCount := n }

/-- Modelled from the spec: `setTotalSamples(n)` of the worker. -/
def SigMFFileInputThread.setTotalSamples (t : SigMFFileInputThread) (n : Nat) :
    SigMFFileInputThread :=
  { t with m_totalSamples := n }

/-- Modelled from the spec: `setAccelerationFactor(f)` of the worker. -/
def SigMFFileInputThread.setAccelerationFactor (t : SigMFFileInputThread) (f : Int) :
    SigMFFileInputThread :=
  { t with m_accelerationFactor := f }

/-! ## Seeking -/

/-- The access `m_captures[trackIndex]` with an `int` index: `none` when the
index is outside the list. -/
def capturesAt (m_captures : List SigMFFileCapture) (trackIndex : Int) :
    Option SigMFFileCapture :=
  if 0 ≤ trackIndex then m_captures[trackIndex.toNat]? else none

/-- Embedding of `SigMFFileInput::seekFileStream`: on an open data stream
`seekPoint` is `sampleIndex*m_sampleBytes*2`, computed in `uint64_t`, and
`seekg(seekPoint, std::ios::beg)` takes it as a signed 64-bit offset. Below
`2^63` the read position becomes `seekPoint`; from `2^63` on the offset is
negative, the seek fails and the read position stays where it was. -/
def seekFileStream (self : SigMFFileInput) (sampleIndex : Nat) : SigMFFileInput :=
  if self.m_dataStreamOpen then
    let seekPoint := mulU64 (mulU64 sampleIndex self.m_sampleBytes) 2
    if seekPoint < 9223372036854775808 then
      { self with m_dataStreamPos := seekPoint }
    else
      self
  else
    self

/-- Embedding of `SigMFFileInput::seekTrackMillis`. The `int` argument is
converted to `uint64_t` by the multiplication. -/
def seekTrackMillis (self : SigMFFileInput) (seekMillis : Int) : Option SigMFFileInput :=
  match capturesAt self.m_captures self.m_currentTrackIndex with
  | none => none
  | some cap =>
    some (seekFileStream self
      (addU64 cap.m_sampleStart (mulU64 cap.m_length (toU64 seekMillis) / 1000)))

/-- Embedding of `SigMFFileInput::seekFileMillis`. -/
def seekFileMillis (self : SigMFFileInput) (seekMillis : Int) : SigMFFileInput :=
  seekFileStream self (mulU64 self.m_totalSamples (toU64 seekMillis) / 1000)

/-! ## Start and stop -/

/-- Embedding of `SigMFFileInput::start`. `sizeofSample` is `sizeof(Sample)`
and `fifoSetSize` the result of `m_sampleFifo.setSize`, both fixed outside
this file. The reports pushed to the GUI queue are not part of the state. -/
def start (self : SigMFFileInput) (sizeofSample : Nat) (fifoSetSize : Bool) :
    Bool × SigMFFileInput :=
  if !self.m_dataStreamOpen then
    (false, self)
  else
    let s1 := if self.m_dataStreamPos ≠ 0 then { self with m_dataStreamPos := 0 } else self
    if !fifoSetSize then
      (false, s1)
    else
      let thread : SigMFFileInputThread := {}
      let thread := thread.setAccelerationFactor s1.m_settings.m_accelerationFactor
      let thread := thread.setTrackIndex 0
      let thread := thread.startWork
      (true, { s1 with
        m_sampleFifoSize :=
          mulU64 (toU64 (s1.m_settings.m_accelerationFactor * s1.m_sampleRate)) sizeofSample
        m_fileInputThread := some thread
        m_deviceDescription := "SigMFFileInput" })

/-- Embedding of `SigMFFileInput::stop`: the worker, if any, is stopped and
deleted. The data stream is not touched. -/
def stop (self : SigMFFileInput) : SigMFFileInput :=
  match self.m_fileInputThread with
  | some _ => { self with m_fileInputThread := none, m_deviceDescription := "" }
  | none => { self with m_deviceDescription := "" }

/-! ## Message handling -/

/-- The messages of `handleMessage` embedded here: the seek and play
commands and the two reports of the worker. -/
inductive Message where
  | MsgConfigureTrackSeek (millis : Int)
  | MsgConfigureFileSeek (millis : Int)
  | MsgConfigureTrackIndex (trackIndex : Int)
  | MsgConfigureTrackWork (working : Bool)
  | MsgConfigureFileWork (working : Bool)
  | MsgReportEOF
  | MsgReportTrackChange (trackIndex : Int)
deriving DecidableEq, Repr

/-- Embedding of `SigMFFileInput::handleMessage`, branch by branch. The
result is `none` when a branch indexes `m_captures` out of range or calls the
worker through a null `m_fileInputThread`. The branches of
`MsgConfigureTrackIndex` and of `MsgReportTrackChange` end without a `return`
statement, so that control flows off the end of a function that returns
`bool`: the handling of these two messages is undefined and the result is
`none` on every state. The Boolean result of the other branches, `true`, and
the messages pushed to the GUI queue are not part of the state. -/
def handleMessage (self : SigMFFileInput) : Message → Option SigMFFileInput
  | .MsgConfigureTrackSeek seekMillis =>
    match seekTrackMillis self seekMillis with
    | none => none
    | some s1 =>
      match s1.m_fileInputThread with
      | none => some s1
      | some thread =>
        let working := thread.isRunning
        let thread := if working then thread.stopWork else thread
        match capturesAt s1.m_captures s1.m_currentTrackIndex with
        | none => none
        | some cap =>
          let thread := thread.setSamplesCount
            (addU64 cap.m_sampleStart (mulU64 cap.m_length (toU64 seekMillis) / 1000))
          let thread := if working then thread.startWork else thread
          some { s1 with m_fileInputThread := some thread }
  | .MsgConfigureFileSeek seekMillis =>
    let s1 := seekFileStream self (toU64 seekMillis)
    let sampleCount := mulU64 s1.m_totalSamples (toU64 seekMillis) / 1000
    let s2 := { s1 with m_currentTrackIndex := getTrackIndex s1.m_captureStarts sampleCount }
    match s2.m_fileInputThread with
    | none => some s2
    | some thread =>
      let working := thread.isRunning
      let thread := if working then thread.stopWork else thread
      let thread := thread.setTrackIndex s2.m_currentTrackIndex
      let thread := thread.setSamplesCount sampleCount
      let thread := if working then thread.startWork else thread
      some { s2 with m_fileInputThread := some thread }
  | .MsgConfigureTrackIndex _ => none
  | .MsgConfigureTrackWork working =>
    let s1 := { self with m_trackMode := true }
    match s1.m_fileInputThread with
    | none => some s1
    | some thread =>
      if working then
        match capturesAt s1.m_captures s1.m_currentTrackIndex with
        | none => none
        | some cap =>
          let thread := thread.setTotalSamples (addU64 cap.m_sampleStart cap.m_length)
          let thread := thread.startWork
          some { s1 with m_fileInputThread := some thread }
      else
        some { s1 with m_fileInputThread := some thread.stopWork }
  | .MsgConfigureFileWork working =>
    let s1 := { self with m_trackMode := false }
    match s1.m_fileInputThread with
    | none => some s1
    | some thread =>
      if working then
        let thread := thread.setTotalSamples s1.m_totalSamples
        let thread := thread.startWork
        some { s1 with m_fileInputThread := some thread }
      else
        some { s1 with m_fileInputThread := some thread.stopWork }
  | .MsgReportEOF =>
    match self.m_fileInputThread with
    | none => none
    | some thread =>
      let working := thread.isRunning
      let thread := if working then thread.stopWork else thread
      let looped : Option (SigMFFileInput × SigMFFileInputThread) :=
        if self.m_trackMode then
          if self.m_settings.m_trackLoop then
            match capturesAt self.m_captures self.m_currentTrackIndex with
            | none => none
            | some cap =>
              some (seekFileStream self cap.m_sampleStart,
                    thread.setTrackIndex self.m_currentTrackIndex)
          else some (self, thread)
        else
          if self.m_settings.m_fullLoop then
            some (seekFileStream self 0, thread.setTrackIndex 0)
          else some (self, thread)
      match looped with
      | none => none
      | some (s1, thread) =>
        let thread := if working then thread.startWork else thread
        some { s1 with m_fileInputThread := some thread }
  | .MsgReportTrackChange _ => none

/-! ## Metadata -/

/-- The class `\w` of the regular expressions of the source: letters, digits
and the underscore. -/
def isWordChar (c : Char) : Bool :=
  c.isAlphanum || c == '_'

/-- The sub-matches of `(\w)(\w)(\d+)(_\w\w)?`: the two leading characters,
the digits, and the suffix, empty when the optional group did not take part. -/
structure DataTypeMatch where
  m1 : Char
  m2 : Char
  m3 : List Char
  m4 : List Char
deriving DecidableEq, Repr

/-- A match of `(\w)(\w)(\d+)(_\w\w)?` starting at the head of the characters:
two word characters, the longest run of digits, which must not be empty, and
the suffix when it is there. -/
def matchDataTypeAt : List Char → Option DataTypeMatch
  | c1 :: c2 :: rest =>
    if isWordChar c1 && isWordChar c2 then
      let digits := rest.takeWhile Char.isDigit
      if digits.isEmpty then none
      else
        match rest.dropWhile Char.isDigit with
        | u :: a :: b :: _ =>
          if u == '_' && isWordChar a && isWordChar b then
            some { m1 := c1, m2 := c2, m3 := digits, m4 := [u, a, b] }
          else
            some { m1 := c1, m2 := c2, m3 := digits, m4 := [] }
        | _ => some { m1 := c1, m2 := c2, m3 := digits, m4 := [] }
    else none
  | _ => none

/-- The search `std::regex_search` for `(\w)(\w)(\d+)(_\w\w)?`: the match at
the first position of the characters that has one. -/
def searchDataType : List Char → Option DataTypeMatch
  | [] => none
  | c :: cs =>
    match matchDataTypeAt (c :: cs) with
    | some m => some m
    | none => searchDataType cs

/-- The conversion `boost::lexical_cast<int>` of a run of digits: its decimal
value, or `none` (the exception `bad_lexical_cast`) when the value does not
fit an `int`. -/
def lexicalCastInt (digits : List Char) : Option Int :=
  let value : Nat := digits.foldl (fun (acc : Nat) (d : Char) => acc * 10 + (d.toNat - 48)) 0
  if value ≤ 2147483647 then some (value : Int) else none

/-- Embedding of `SigMFFileInput::analyzeDataType`. A match object of this
pattern has five entries when the search succeeds and none when it fails, so
both tests on its size are the test that the search succeeded. -/
def analyzeDataType (dataTypeString : String) (dataType : SigMFFileDataType) :
    SigMFFileDataType :=
  match searchDataType dataTypeString.toList with
  | none => dataType
  | some m =>
    let d1 : SigMFFileDataType :=
      { dataType with
        m_complex := (m.m1 == 'c')
        m_floatingPoint := (m.m2 == 'f')
        m_signed := (m.m2 == 'f' || m.m2 == 'i')
        m_sampleBits :=
          match lexicalCastInt m.m3 with
          | some bits => bits
          | none => 32 }
    { d1 with m_bigEndian := (m.m4 == ['_', 'b', 'e']) }

/-- The decimal value of a run of digit characters, most significant first:
the bit width that a datatype string writes. -/
def decimalValue (digits : List Char) : Nat :=
  Nat.ofDigits 10 (digits.reverse.map (fun d => d.toNat - 48))

/-- The datatype strings of the shape `[c|r][f|i|u]<bits>[_be|_le]`: a letter
`c` or `r`, a letter `f`, `i` or `u`, a non-empty run of decimal digits and
an optional suffix `_be` or `_le`. -/
def isDataTypeShape (c1 c2 : Char) (digits suffix : List Char) : Bool :=
  (c1 == 'c' || c1 == 'r') && (c2 == 'f' || c2 == 'i' || c2 == 'u') &&
    !digits.isEmpty && digits.all Char.isDigit &&
    (suffix == [] || suffix == ['_', 'b', 'e'] || suffix == ['_', 'l', 'e'])

/-- Modelled from the spec: `SigMFFileInputSettings::bitsToBytes`, defined
outside the sources at hand: the byte stride `ceil(sampleBits/8)`. -/
def bitsToBytes (bits : Int) : Nat :=
  ((bits + 7) / 8).toNat

/-- Embedding of `SigMFFileInput::extractMeta` for the members that the rest
of the class reads. The result is `none` when the byte stride is zero, on
which the source divides. -/
def extractMeta (self : SigMFFileInput) (metaRecord : MetaRecord) (dataFileSize : Nat) :
    Option SigMFFileInput :=
  let dataType := analyzeDataType metaRecord.datatype self.m_dataType
  let sampleBytes := bitsToBytes dataType.m_sampleBits
  if sampleBytes * 2 = 0 then none
  else
    let dataType : SigMFFileDataType :=
      if metaRecord.sdrangel_version.length > 0 ∧ dataType.m_sampleBits = 32 then
        { dataType with m_sampleBits := 24 }
      else dataType
    some { self with
      m_dataTypeStr := metaRecord.datatype
      m_sampleBytes := sampleBytes
      m_totalSamples := dataFileSize / (sampleBytes * 2)
      m_sha512 := metaRecord.sha512
      m_sdrAngelVersion := metaRecord.sdrangel_version
      m_nbCaptures := metaRecord.captures.length
      m_dataType := { dataType with m_swapIQ := decide (metaRecord.global_sample_rate < 0) }
      m_coreSampleRate :=
        if metaRecord.global_sample_rate < 0 then -metaRecord.global_sample_rate
        else metaRecord.global_sample_rate }

/-! ## Opening a record -/

/-- What the file system holds for a record name: whether the data file
`<name>.sigmf-data` can be opened, its size in bytes, the parsed content of
`<name>.sigmf-meta`, and the SHA-512 of the data file as `sw::sha512::file`
computes it. -/
structure RecordFiles where
  dataOpen : Bool
  dataFileSize : Nat
  metaRecord : MetaRecord
  dataSha512 : String
deriving DecidableEq, Repr

/-- Embedding of `SigMFFileInput::openFileStreams`, given what the file system
holds for the file name. The data stream is opened at its end. The result is
`none` when `extractMeta` or `extractCaptures` is, or when the total time
divides by a zero sample rate. The reports pushed to the GUI queue are not
part of the state. -/
def openFileStreams (self : SigMFFileInput) (files : RecordFiles) :
    Option (Bool × SigMFFileInput) :=
  if !files.dataOpen then
    some (false, { self with m_dataStreamOpen := false, m_dataStreamPos := 0 })
  else
    let s0 := { self with m_dataStreamOpen := true, m_dataStreamPos := files.dataFileSize }
    match extractMeta s0 files.metaRecord files.dataFileSize with
    | none => none
    | some s1 =>
      match extractCaptures s1 files.metaRecord with
      | none => none
      | some s2 =>
        match s2.m_captures.getLast? with
        | none => none
        | some back =>
          if back.m_sampleRate = 0 then none
          else
            let centerFrequency :=
              match s2.m_captures with
              | first :: _ => first.m_centerFrequency
              | [] => 0
            let s3 := { s2 with
              m_totalTimeMs :=
                addU64 back.m_cumulativeTime (mulU64 back.m_length 1000 / back.m_sampleRate)
              m_deviceEngineInputQueue :=
                s2.m_deviceEngineInputQueue ++
                  [DSPSignalNotification.mk (doubleToInt s2.m_coreSampleRate) centerFrequency] }
            if s3.m_sha512.length ≠ 0 then
              let crcOK := decide (s3.m_sha512 = files.dataSha512)
              let s4 := { s3 with m_crcAvailable := true, m_crcOK := crcOK }
              if !crcOK then
                some (false, s4)
              else
                some (true, { s4 with
                  m_recordLengthOK :=
                    decide (s4.m_totalSamples = addU64 back.m_sampleStart back.m_length) })
            else
              let s4 := { s3 with m_crcAvailable := false }
              some (true, { s4 with
                m_recordLengthOK :=
                  decide (s4.m_totalSamples = addU64 back.m_sampleStart back.m_length) })

/-- The integrity status that `webapiFormatDeviceReport` reports:
`!m_crcAvailable ? 0 : m_crcOK ? 1 : 2`. -/
def crcStatus (self : SigMFFileInput) : Nat :=
  if !self.m_crcAvailable then 0 else if self.m_crcOK then 1 else 2

/-! ## Settings -/

/-- Embedding of `SigMFFileInput::applySettings`. `files` tells what the file
system holds for a file name, `sizeofSample` is `sizeof(Sample)` and
`fifoSetSize` the result of `m_sampleFifo.setSize`. The result is the returned
Boolean, the state and the list `reverseAPIKeys`; it is `none` when
`openFileStreams` is. The request sent to the reverse API, which only goes to
the network, is left out. -/
def applySettings (self : SigMFFileInput) (settings : SigMFFileInputSettings) (force : Bool)
    (files : String → RecordFiles) (sizeofSample : Nat) (fifoSetSize : Bool) :
    Option (Bool × SigMFFileInput × List String) :=
  let changed : SigMFFileInput × List String :=
    if self.m_settings.m_accelerationFactor ≠ settings.m_accelerationFactor ∨ force = true then
      match self.m_fileInputThread with
      | some thread =>
        let fifoSize :=
          mulU64 (toU64 (self.m_settings.m_accelerationFactor * self.m_sampleRate)) sizeofSample
        let s := if fifoSetSize then { self with m_sampleFifoSize := fifoSize } else self
        let thread := thread.setAccelerationFactor settings.m_accelerationFactor
        ({ s with m_fileInputThread := some thread }, ["accelerationFactor"])
      | none => (self, ["accelerationFactor"])
    else (self, [])
  let s1 := changed.1
  let keys := changed.2
  let keys := if self.m_settings.m_trackLoop ≠ settings.m_trackLoop then
      keys ++ ["trackLoop"] else keys
  let keys := if self.m_settings.m_trackLoop ≠ settings.m_fullLoop then
      keys ++ ["fullLoop"] else keys
  let opened : Option (SigMFFileInput × List String) :=
    if self.m_settings.m_fileName ≠ settings.m_fileName then
      match openFileStreams s1 (files settings.m_fileName) with
      | none => none
      | some (_, s2) => some (s2, keys ++ ["fileName"])
    else some (s1, keys)
  match opened with
  | none => none
  | some (s2, keys) => some (true, { s2 with m_settings := settings }, keys)

/-- Modelled from the spec: the settings carried by a web API request,
`SWGSDRangel::SWGSigMFFileInputSettings`, a generated class outside the
sources at hand. The fields are what its getters `getFileName()`,
`getAccelerationFactor()`, `getTrackLoop()` and `getFullLoop()` return. -/
structure SWGSigMFFileInputSettings where
  file_name : String := ""
  acceleration_factor : Int := 0
  track_loop : Int := 0
  full_loop : Int := 0
deriving DecidableEq, Repr

/-- Embedding of `SigMFFileInput::webapiUpdateDeviceSettings`: one conditional
per key, in the order of the source, each with the assignment the source
makes. The four keys of the reverse API write members that
`SigMFFileInputSettings` does not hold here. -/
def webapiUpdateDeviceSettings (settings : SigMFFileInputSettings)
    (deviceSettingsKeys : List String) (response : SWGSigMFFileInputSettings) :
    SigMFFileInputSettings :=
  let settings :=
    if deviceSettingsKeys.contains "fileName" then
      { settings with m_fileName := response.file_name }
    else settings
  let settings :=
    if deviceSettingsKeys.contains "accelerationFactor" then
      { settings with m_accelerationFactor := response.acceleration_factor }
    else settings
  let settings :=
    if deviceSettingsKeys.contains "trackLoop" then
      { settings with m_trackLoop := decide (response.track_loop ≠ 0) }
    else settings
  let settings :=
    if deviceSettingsKeys.contains "fullLoop" then
      { settings with m_trackLoop := decide (response.full_loop ≠ 0) }
    else settings
  settings

/-! ## Message handling with the order of the calls -/

/-- One call that a branch of `handleMessage` makes on the file cursor or on
the worker. -/
inductive Action where
  | seekFileStream (sampleIndex : Nat)
  | stopWork
  | startWork
  | setTrackIndex (i : Int)
  | setSamplesCount (n : Nat)
  | setTotalSamples (n : Nat)
deriving DecidableEq, Repr

/-- The call `seekFileStream(sampleIndex)`, appended to the calls made so far. -/
def tracedSeekFileStream (self : SigMFFileInput) (trace : List Action) (sampleIndex : Nat) :
    SigMFFileInput × List Action :=
  (seekFileStream self sampleIndex, trace ++ [Action.seekFileStream sampleIndex])

/-- The call `seekTrackMillis(seekMillis)`, whose `seekFileStream` is appended
to the calls made so far. -/
def tracedSeekTrackMillis (self : SigMFFileInput) (trace : List Action) (seekMillis : Int) :
    Option (SigMFFileInput × List Action) :=
  match capturesAt self.m_captures self.m_currentTrackIndex with
  | none => none
  | some cap =>
    some (tracedSeekFileStream self trace
      (addU64 cap.m_sampleStart (mulU64 cap.m_length (toU64 seekMillis) / 1000)))

/-- The call `m_fileInputThread->stopWork()`, appended to the calls made so far. -/
def tracedStopWork (thread : SigMFFileInputThread) (trace : List Action) :
    SigMFFileInputThread × List Action :=
  (thread.stopWork, trace ++ [Action.stopWork])

/-- The call `m_fileInputThread->startWork()`, appended to the calls made so far. -/
def tracedStartWork (thread : SigMFFileInputThread) (trace : List Action) :
    SigMFFileInputThread × List Action :=
  (thread.startWork, trace ++ [Action.startWork])

/-- The call `m_fileInputThread->setTrackIndex(i)`, appended to the calls made
so far. -/
def tracedSetTrackIndex (thread : SigMFFileInputThread) (trace : List Action) (i : Int) :
    SigMFFileInputThread × List Action :=
  (thread.setTrackIndex i, trace ++ [Action.setTrackIndex i])

/-- The call `m_fileInputThread->setSamplesCount(n)`, appended to the calls
made so far. -/
def tracedSetSamplesCount (thread : SigMFFileInputThread) (trace : List Action) (n : Nat) :
    SigMFFileInputThread × List Action :=
  (thread.setSamplesCount n, trace ++ [Action.setSamplesCount n])

/-- The call `m_fileInputThread->setTotalSamples(n)`, appended to the calls
made so far. -/
def tracedSetTotalSamples (thread : SigMFFileInputThread) (trace : List Action) (n : Nat) :
    SigMFFileInputThread × List Action :=
  (thread.setTotalSamples n, trace ++ [Action.setTotalSamples n])

/-- The branches of `SigMFFileInput::handleMessage` with every call on the
cursor and on the worker recorded in the order of the source: the result is
the state after the branch and the list of its calls, oldest first. As in
`handleMessage`, the two branches that end without a `return` statement are
`none`. -/
def handleMessageTraced (self : SigMFFileInput) :
    Message → Option (SigMFFileInput × List Action)
  | .MsgConfigureTrackSeek seekMillis =>
    match tracedSeekTrackMillis self [] seekMillis with
    | none => none
    | some (s1, tr) =>
      match s1.m_fileInputThread with
      | none => some (s1, tr)
      | some thread =>
        let working := thread.isRunning
        let (thread, tr) := if working then tracedStopWork thread tr else (thread, tr)
        match capturesAt s1.m_captures s1.m_currentTrackIndex with
        | none => none
        | some cap =>
          let (thread, tr) := tracedSetSamplesCount thread tr
            (addU64 cap.m_sampleStart (mulU64 cap.m_length (toU64 seekMillis) / 1000))
          let (thread, tr) := if working then tracedStartWork thread tr else (thread, tr)
          some ({ s1 with m_fileInputThread := some thread }, tr)
  | .MsgConfigureFileSeek seekMillis =>
    let (s1, tr) := tracedSeekFileStream self [] (toU64 seekMillis)
    let sampleCount := mulU64 s1.m_totalSamples (toU64 seekMillis) / 1000
    let s2 := { s1 with m_currentTrackIndex := getTrackIndex s1.m_captureStarts sampleCount }
    match s2.m_fileInputThread with
    | none => some (s2, tr)
    | some thread =>
      let working := thread.isRunning
      let (thread, tr) := if working then tracedStopWork thread tr else (thread, tr)
      let (thread, tr) := tracedSetTrackIndex thread tr s2.m_currentTrackIndex
      let (thread, tr) := tracedSetSamplesCount thread tr sampleCount
      let (thread, tr) := if working then tracedStartWork thread tr else (thread, tr)
      some ({ s2 with m_fileInputThread := some thread }, tr)
  | .MsgConfigureTrackIndex _ => none
  | .MsgConfigureTrackWork working =>
    let s1 := { self with m_trackMode := true }
    match s1.m_fileInputThread with
    | none => some (s1, [])
    | some thread =>
      if working then
        match capturesAt s1.m_captures s1.m_currentTrackIndex with
        | none => none
        | some cap =>
          let (thread, tr) := tracedSetTotalSamples thread []
            (addU64 cap.m_sampleStart cap.m_length)
          let (thread, tr) := tracedStartWork thread tr
          some ({ s1 with m_fileInputThread := some thread }, tr)
      else
        let (thread, tr) := tracedStopWork thread []
        some ({ s1 with m_fileInputThread := some thread }, tr)
  | .MsgConfigureFileWork working =>
    let s1 := { self with m_trackMode := false }
    match s1.m_fileInputThread with
    | none => some (s1, [])
    | some thread =>
      if working then
        let (thread, tr) := tracedSetTotalSamples thread [] s1.m_totalSamples
        let (thread, tr) := tracedStartWork thread tr
        some ({ s1 with m_fileInputThread := some thread }, tr)
      else
        let (thread, tr) := tracedStopWork thread []
        some ({ s1 with m_fileInputThread := some thread }, tr)
  | .MsgReportEOF =>
    match self.m_fileInputThread with
    | none => none
    | some thread =>
      let working := thread.isRunning
      let (thread, tr) := if working then tracedStopWork thread [] else (thread, [])
      let looped : Option (SigMFFileInput × SigMFFileInputThread × List Action) :=
        if self.m_trackMode then
          if self.m_settings.m_trackLoop then
            match capturesAt self.m_captures self.m_currentTrackIndex with
            | none => none
            | some cap =>
              let (s1, tr) := tracedSeekFileStream self tr cap.m_sampleStart
              let (thread, tr) := tracedSetTrackIndex thread tr self.m_currentTrackIndex
              some (s1, thread, tr)
          else some (self, thread, tr)
        else
          if self.m_settings.m_fullLoop then
            let (s1, tr) := tracedSeekFileStream self tr 0
            let (thread, tr) := tracedSetTrackIndex thread tr 0
            some (s1, thread, tr)
          else some (self, thread, tr)
      match looped with
      | none => none
      | some (s1, thread, tr) =>
        let (thread, tr) := if working then tracedStartWork thread tr else (thread, tr)
        some ({ s1 with m_fileInputThread := some thread }, tr)
  | .MsgReportTrackChange _ => none

/-- Whether a list of calls repositions the file cursor at a point where the
worker is running; `running` tells whether the worker runs before the first
call. -/
def seeksWhileRunning : Bool → List Action → Bool
  | _, [] => false
  | running, Action.seekFileStream _ :: rest => running || seeksWhileRunning running rest
  | _, Action.stopWork :: rest => seeksWhileRunning false rest
  | _, Action.startWork :: rest => seeksWhileRunning true rest
  | running, Action.setTrackIndex _ :: rest => seeksWhileRunning running rest
  | running, Action.setSamplesCount _ :: rest => seeksWhileRunning running rest
  | running, Action.setTotalSamples _ :: rest => seeksWhileRunning running rest

/-- Whether a list of calls sets a parameter of the worker (track index,
sample count or bound) at a point where the worker is running. -/
def setsWhileRunning : Bool → List Action → Bool
  | _, [] => false
  | running, Action.seekFileStream _ :: rest => setsWhileRunning running rest
  | _, Action.stopWork :: rest => setsWhileRunning false rest
  | _, Action.startWork :: rest => setsWhileRunning true rest
  | running, Action.setTrackIndex _ :: rest => running || setsWhileRunning running rest
  | running, Action.setSamplesCount _ :: rest => running || setsWhileRunning running rest
  | running, Action.setTotalSamples _ :: rest => running || setsWhileRunning running rest

/-! ## Lookup: correctness of the ordered search -/

/-- Pairwise order of a list read through `getD`. -/
theorem getD_le_of_pairwise (v : List Nat) (hs : v.Pairwise (· ≤ ·)) (i j : Nat)
    (hij : i ≤ j) (hj : j < v.length) : v.getD i 0 ≤ v.getD j 0 := by
  rcases Nat.eq_or_lt_of_le hij with h | h
  · subst h; exact le_refl _
  · have hi : i < v.length := lt_trans h hj
    have := (List.pairwise_iff_getElem.mp hs) i j hi hj h
    simpa [List.getD_eq_getElem, hi, hj] using this

/-- On an ascending list the search loop keeps the partition of the list:
everything left of the result is `≤ val`, everything from the result on is
`> val`. -/
theorem upperBoundLoop_partition (v : List Nat) (val : Nat) (hs : v.Pairwise (· ≤ ·)) :
    ∀ fuel first len, len ≤ fuel → first + len ≤ v.length →
      (∀ j, j < first → v.getD j 0 ≤ val) →
      (∀ j, first + len ≤ j → j < v.length → val < v.getD j 0) →
      upperBoundLoop v val fuel first len ≤ v.length ∧
      (∀ j, j < upperBoundLoop v val fuel first len → v.getD j 0 ≤ val) ∧
      (∀ j, upperBoundLoop v val fuel first len ≤ j → j < v.length → val < v.getD j 0) := by
  intro fuel
  induction fuel with
  | zero =>
    intro first len hfuel hlen hlo hhi
    have h0 : len = 0 := Nat.le_zero.mp hfuel
    subst h0
    simp only [upperBoundLoop]
    exact ⟨by omega, hlo, fun j hj hjl => hhi j (by omega) hjl⟩
  | succ fuel ih =>
    intro first len hfuel hlen hlo hhi
    simp only [upperBoundLoop]
    by_cases hpos : 0 < len
    · simp only [hpos, if_true]
      have hhalf : len / 2 < len := Nat.div_lt_self hpos (by decide)
      have hmid : first + len / 2 < v.length := by omega
      by_cases hlt : val < v.getD (first + len / 2) 0
      · simp only [hlt, if_true]
        refine ih first (len / 2) (by omega) (by omega) hlo ?_
        intro j hj hjl
        exact lt_of_lt_of_le hlt (getD_le_of_pairwise v hs _ _ hj hjl)
      · simp only [hlt, if_false]
        refine ih (first + len / 2 + 1) (len - len / 2 - 1) (by omega) (by omega) ?_ ?_
        · intro j hj
          have h1 : v.getD j 0 ≤ v.getD (first + len / 2) 0 :=
            getD_le_of_pairwise v hs _ _ (by omega) hmid
          exact le_trans h1 (Nat.le_of_not_lt hlt)
        · intro j hj hjl
          exact hhi j (by omega) hjl
    · simp only [hpos, if_false]
      exact ⟨by omega, hlo, fun j hj hjl => hhi j (by omega) hjl⟩

/-- On an ascending list `upper_bound` returns the number of leading elements
that are `≤ val`. -/
theorem upper_bound_partition (v : List Nat) (val : Nat) (hs : v.Pairwise (· ≤ ·)) :
    upper_bound v val ≤ v.length ∧
    (∀ j, j < upper_bound v val → v.getD j 0 ≤ val) ∧
    (∀ j, upper_bound v val ≤ j → j < v.length → val < v.getD j 0) := by
  unfold upper_bound
  exact upperBoundLoop_partition v val hs v.length 0 v.length (le_refl _) (by omega)
    (fun j hj => absurd hj (Nat.not_lt_zero j)) (fun j hj hjl => absurd hjl (by omega))

/-- On any list the search loop returns either its starting position, and
then the first element of the range was probed and found `> val`, or the
successor of a probed position whose element is `≤ val`. -/
theorem upperBoundLoop_probe (v : List Nat) (val : Nat) :
    ∀ fuel first len, len ≤ fuel →
      first ≤ upperBoundLoop v val fuel first len ∧
      upperBoundLoop v val fuel first len ≤ first + len ∧
      (first < upperBoundLoop v val fuel first len →
        v.getD (upperBoundLoop v val fuel first len - 1) 0 ≤ val) ∧
      (upperBoundLoop v val fuel first len = first → 0 < len → val < v.getD first 0) := by
  intro fuel
  induction fuel with
  | zero =>
    intro first len hfuel
    have h0 : len = 0 := Nat.le_zero.mp hfuel
    subst h0
    simp [upperBoundLoop]
  | succ fuel ih =>
    intro first len hfuel
    simp only [upperBoundLoop]
    by_cases hpos : 0 < len
    · simp only [hpos, if_true]
      have hhalf : len / 2 < len := Nat.div_lt_self hpos (by decide)
      by_cases hlt : val < v.getD (first + len / 2) 0
      · simp only [hlt, if_true]
        obtain ⟨h1, h2, h3, h4⟩ := ih first (len / 2) (by omega)
        refine ⟨h1, by omega, h3, ?_⟩
        intro hr _
        by_cases hz : 0 < len / 2
        · exact h4 hr hz
        · have : len / 2 = 0 := by omega
          simpa [this] using hlt
      · simp only [hlt, if_false]
        obtain ⟨h1, h2, h3, h4⟩ := ih (first + len / 2 + 1) (len - len / 2 - 1) (by omega)
        refine ⟨by omega, by omega, ?_, ?_⟩
        · intro _
          rcases Nat.eq_or_lt_of_le h1 with heq | hgt
          · rw [← heq]
            simpa using Nat.le_of_not_lt hlt
          · exact h3 hgt
        · intro hr _
          omega
    · simp only [hpos, if_false]
      refine ⟨le_refl _, by omega, ?_, ?_⟩
      · intro h; exact absurd h (lt_irrefl _)
      · intro _ h; exact h.elim

/-- On any non-empty list whose first element is `≤ val`, `upper_bound` is
positive and the element just before it is `≤ val`. -/
theorem upper_bound_probe (v : List Nat) (val : Nat) (hne : v ≠ [])
    (h0 : v.getD 0 0 ≤ val) :
    0 < upper_bound v val ∧ upper_bound v val ≤ v.length ∧
    v.getD (upper_bound v val - 1) 0 ≤ val := by
  unfold upper_bound
  obtain ⟨_, h2, h3, h4⟩ := upperBoundLoop_probe v val v.length 0 v.length (le_refl _)
  have hlen : 0 < v.length := List.length_pos.mpr hne
  have hpos : 0 < upperBoundLoop v val v.length 0 v.length := by
    rcases Nat.eq_zero_or_pos (upperBoundLoop v val v.length 0 v.length) with hz | hp
    · exact absurd (h4 hz hlen) (Nat.not_lt.mpr h0)
    · exact hp
  exact ⟨hpos, by omega, h3 hpos⟩

/-- C5: on a non-empty ascending list of capture starts and a sample index at
or after the first start, `getTrackIndex` returns the greatest index whose
start is at or before the sample index; at or after the last start it
returns the last index. -/
theorem getTrackIndex_greatest (m_captureStarts : List Nat) (sampleIndex : Nat)
    (hne : m_captureStarts ≠ []) (hs : m_captureStarts.Pairwise (· ≤ ·))
    (h0 : m_captureStarts.getD 0 0 ≤ sampleIndex) :
    ∃ i : Nat, getTrackIndex m_captureStarts sampleIndex = (i : Int) ∧
      i < m_captureStarts.length ∧
      m_captureStarts.getD i 0 ≤ sampleIndex ∧
      (∀ j, j < m_captureStarts.length → m_captureStarts.getD j 0 ≤ sampleIndex → j ≤ i) ∧
      (m_captureStarts.getD (m_captureStarts.length - 1) 0 ≤ sampleIndex →
        i = m_captureStarts.length - 1) := by
  obtain ⟨hle, _, hhi⟩ := upper_bound_partition m_captureStarts sampleIndex hs
  obtain ⟨hpos, _, hprev⟩ := upper_bound_probe m_captureStarts sampleIndex hne h0
  refine ⟨upper_bound m_captureStarts sampleIndex - 1, ?_, by omega, hprev, ?_, ?_⟩
  · unfold getTrackIndex
    omega
  · intro j hj hjle
    by_contra hcon
    have hge : upper_bound m_captureStarts sampleIndex ≤ j := by omega
    exact absurd (hhi j hge hj) (Nat.not_lt.mpr hjle)
  · intro hlast
    by_contra hcon
    have hlt : upper_bound m_captureStarts sampleIndex ≤ m_captureStarts.length - 1 := by omega
    exact absurd (hhi _ hlt (by omega)) (Nat.not_lt.mpr hlast)

/-- Witness of C5: the starts `[0, 1000, 3000]` and sample 1500 give track 1. -/
theorem getTrackIndex_greatest_witness :
    ∃ i : Nat, getTrackIndex [0, 1000, 3000] 1500 = (i : Int) ∧
      i < [0, 1000, 3000].length ∧
      [0, 1000, 3000].getD i 0 ≤ 1500 ∧
      (∀ j, j < [0, 1000, 3000].length → [0, 1000, 3000].getD j 0 ≤ 1500 → j ≤ i) ∧
      ([0, 1000, 3000].getD ([0, 1000, 3000].length - 1) 0 ≤ 1500 →
        i = [0, 1000, 3000].length - 1) :=
  getTrackIndex_greatest [0, 1000, 3000] 1500 (by decide) (by decide) (by decide)

/-- C7: over an ascending list of capture starts `getTrackIndex` is monotonic
in the sample index. -/
theorem getTrackIndex_mono (m_captureStarts : List Nat) (a b : Nat)
    (hs : m_captureStarts.Pairwise (· ≤ ·)) (hab : a ≤ b) :
    getTrackIndex m_captureStarts a ≤ getTrackIndex m_captureStarts b := by
  obtain ⟨_, hloa, _⟩ := upper_bound_partition m_captureStarts a hs
  obtain ⟨hleb, _, hhib⟩ := upper_bound_partition m_captureStarts b hs
  have hub : upper_bound m_captureStarts a ≤ upper_bound m_captureStarts b := by
    by_contra hcon
    have hlt : upper_bound m_captureStarts b < upper_bound m_captureStarts a := by omega
    have h1 : m_captureStarts.getD (upper_bound m_captureStarts b) 0 ≤ a := hloa _ hlt
    have hlen : upper_bound m_captureStarts b < m_captureStarts.length := by
      obtain ⟨hlea, _, _⟩ := upper_bound_partition m_captureStarts a hs
      omega
    have h2 : b < m_captureStarts.getD (upper_bound m_captureStarts b) 0 :=
      hhib _ (le_refl _) hlen
    omega
  unfold getTrackIndex
  omega

/-- Witness of C7: samples 999 and 1000 over the starts `[0, 1000, 3000]`. -/
theorem getTrackIndex_mono_witness :
    getTrackIndex [0, 1000, 3000] 999 ≤ getTrackIndex [0, 1000, 3000] 1000 :=
  getTrackIndex_mono [0, 1000, 3000] 999 1000 (by decide) (by decide)

/-! ## Timeline construction: the loop of `extractCaptures` -/

/-- Unsigned subtraction is the exact difference when nothing wraps. -/
theorem subU64_eq_sub (a b : Nat) (hba : b ≤ a) (ha : a < U64) : subU64 a b = a - b := by
  simp only [subU64, U64] at *
  omega

/-- The resolution step when the previous capture `p` has no length yet and
`c` was just pushed: `p` gets the distance from `lastSampleStart` to the
start of `c`, which becomes the new `lastSampleStart`. -/
theorem resolvePrevious_unknown (done : List SigMFFileCapture) (p c : SigMFFileCapture)
    (lastSampleStart : Nat) (hp : p.m_length = 0) :
    resolvePrevious (done ++ [p] ++ [c]) (done.length + 1) lastSampleStart =
      some (done ++ [{ p with m_length := subU64 c.m_sampleStart lastSampleStart }] ++ [c],
            c.m_sampleStart) := by
  have h1 : (done ++ [p] ++ [c])[done.length + 1 - 1]? = some p := by
    rw [List.append_assoc, Nat.add_sub_cancel, List.getElem?_append_right (le_refl _)]
    simp
  have h2 : (done ++ [p] ++ [c])[done.length + 1]? = some c := by
    rw [List.append_assoc, List.getElem?_append_right (by omega)]
    simp
  have h3 : ∀ x, (done ++ [p] ++ [c]).set (done.length + 1 - 1) x = done ++ [x] ++ [c] := by
    intro x
    rw [List.append_assoc, Nat.add_sub_cancel, List.set_append_right _ _ (le_refl _)]
    simp
  unfold resolvePrevious
  simp only [h1, h2, h3, hp, if_true, ne_eq, Nat.add_one_ne_zero, not_false_eq_true]

/-- First iteration of the loop: nothing is resolved. -/
theorem extractCapturesBody_first (g : ℚ) (s : ExtractLoop) (it : CaptureDescr)
    (hcaps : s.m_captures = []) (hi : s.i = 0) (hrate : captureSampleRate g it ≠ 0) :
    ∃ s', extractCapturesBody g s it = some s' ∧
      s'.m_captures = [pushedCapture g s.cumulativeTime it] ∧
      s'.i = 1 ∧ s'.lastSampleStart = s.lastSampleStart ∧
      s'.m_captureStarts = s.m_captureStarts ++ [it.sample_start] := by
  have hr : (pushedCapture g s.cumulativeTime it).m_sampleRate ≠ 0 := hrate
  simp [extractCapturesBody, resolvePrevious, hcaps, hi, hr]

/-- A later iteration of the loop when the previous capture has no length
yet: the previous capture gets the distance from `lastSampleStart`. -/
theorem extractCapturesBody_unknown (g : ℚ) (s : ExtractLoop) (it : CaptureDescr)
    (done : List SigMFFileCapture) (p : SigMFFileCapture)
    (hcaps : s.m_captures = done ++ [p]) (hi : s.i = done.length + 1)
    (hp : p.m_length = 0) (hrate : captureSampleRate g it ≠ 0) :
    ∃ s', extractCapturesBody g s it = some s' ∧
      s'.m_captures =
        (done ++ [{ p with m_length := subU64 it.sample_start s.lastSampleStart }]) ++
          [pushedCapture g s.cumulativeTime it] ∧
      s'.i = done.length + 1 + 1 ∧ s'.lastSampleStart = it.sample_start ∧
      s'.m_captureStarts = s.m_captureStarts ++ [it.sample_start] := by
  have hr : (pushedCapture g s.cumulativeTime it).m_sampleRate ≠ 0 := hrate
  have hs : (pushedCapture g s.cumulativeTime it).m_sampleStart = it.sample_start := rfl
  unfold extractCapturesBody
  simp only [hcaps, hi, resolvePrevious_unknown done p _ s.lastSampleStart hp, hs]
  simp [hr]

/-- The loop of `extractCaptures` over descriptors that all declare length 0,
started after a capture `p` without length whose start is `lastSampleStart`:
it succeeds, every capture but the last gets the distance to the next start,
and the last one is still without length. -/
theorem extractCapturesLoop_unknown (g : ℚ) :
    ∀ (rs : List CaptureDescr) (s : ExtractLoop) (done : List SigMFFileCapture)
      (p : SigMFFileCapture),
      s.m_captures = done ++ [p] → s.i = done.length + 1 → p.m_length = 0 →
      s.lastSampleStart = p.m_sampleStart →
      (∀ c ∈ rs, c.length = 0) → (∀ c ∈ rs, captureSampleRate g c ≠ 0) →
      (∀ c ∈ rs, c.sample_start < U64) →
      (p.m_sampleStart :: rs.map (·.sample_start)).Pairwise (· ≤ ·) →
      ∃ s' tail q, List.foldlM (extractCapturesBody g) s rs = some s' ∧
        s'.m_captures = done ++ tail ++ [q] ∧ q.m_length = 0 ∧
        s'.m_captureStarts = s.m_captureStarts ++ rs.map (·.sample_start) ∧
        (tail ++ [q]).map (·.m_sampleStart) = p.m_sampleStart :: rs.map (·.sample_start) ∧
        tail.map (·.m_length) =
          List.zipWith (fun a b => b - a) (p.m_sampleStart :: rs.map (·.sample_start))
            (rs.map (·.sample_start)) := by
  intro rs
  induction rs with
  | nil =>
    intro s done p hcaps _ hp _ _ _ _ _
    exact ⟨s, [], p, rfl, by simpa using hcaps, hp, by simp, by simp, by simp⟩
  | cons r rs ih =>
    intro s done p hcaps hi hp hlast hlen hrate hbound hasc
    obtain ⟨s1, hs1, hc1, hi1, hl1, hst1⟩ :=
      extractCapturesBody_unknown g s r done p hcaps hi hp (hrate r (List.mem_cons_self _ _))
    have hasc' : (r.sample_start :: rs.map (·.sample_start)).Pairwise (· ≤ ·) := by
      simp only [List.map_cons] at hasc
      exact (List.pairwise_cons.mp hasc).2
    have hpr : p.m_sampleStart ≤ r.sample_start := by
      simp only [List.map_cons] at hasc
      exact (List.pairwise_cons.mp hasc).1 _ (List.mem_cons_self _ _)
    have hsub : subU64 r.sample_start s.lastSampleStart = r.sample_start - p.m_sampleStart := by
      rw [hlast]
      exact subU64_eq_sub _ _ hpr (hbound r (List.mem_cons_self _ _))
    obtain ⟨s', tail, q, hfold, hcaps', hq, hstarts', hmapS, hmapL⟩ :=
      ih s1 (done ++ [{ p with m_length := subU64 r.sample_start s.lastSampleStart }])
        (pushedCapture g s.cumulativeTime r) hc1 (by simpa using hi1)
        (hlen r (List.mem_cons_self _ _)) hl1
        (fun c hc => hlen c (List.mem_cons_of_mem _ hc))
        (fun c hc => hrate c (List.mem_cons_of_mem _ hc))
        (fun c hc => hbound c (List.mem_cons_of_mem _ hc)) hasc'
    refine ⟨s', { p with m_length := subU64 r.sample_start s.lastSampleStart } :: tail, q,
      ?_, ?_, hq, ?_, ?_, ?_⟩
    · simp [List.foldlM_cons, hs1, hfold]
    · simpa using hcaps'
    · simp [hstarts', hst1]
    · have hm : (pushedCapture g s.cumulativeTime r).m_sampleStart = r.sample_start := rfl
      rw [hm] at hmapS
      simp [hmapS]
    · have hm : (pushedCapture g s.cumulativeTime r).m_sampleStart = r.sample_start := rfl
      rw [hm] at hmapL
      simp [hmapL, hsub]

/-- Element `k` of the list of distances between neighbours. -/
theorem getD_zipWith_gap (l : List Nat) :
    ∀ (a k : Nat), k < l.length →
      (List.zipWith (fun x y => y - x) (a :: l) l).getD k 0 = l.getD k 0 - (a :: l).getD k 0 := by
  induction l with
  | nil => intro a k hk; exact absurd hk (Nat.not_lt_zero _)
  | cons b l ih =>
    intro a k hk
    cases k with
    | zero => simp
    | succ k =>
      have := ih b k (by simpa using hk)
      simpa using this

/-- In an ascending list every element is at most the last one. -/
theorem le_getLast_of_pairwise (l : List Nat) (z : Nat) (hs : l.Pairwise (· ≤ ·))
    (hz : l.getLast? = some z) : ∀ x ∈ l, x ≤ z := by
  obtain ⟨ys, rfl⟩ := List.getLast?_eq_some_iff.mp hz
  intro x hx
  rcases List.mem_append.mp hx with h | h
  · exact (List.pairwise_append.mp hs).2.2 x h z (by simp)
  · simp at h
    omega

/-- Reading a field of an element is reading the element of the mapped list. -/
theorem getD_length_eq (l : List SigMFFileCapture) (k : Nat) :
    (l.getD k {}).m_length = (l.map (·.m_length)).getD k 0 :=
  (List.getD_map (l := l) (d := ({} : SigMFFileCapture)) (n := k) (·.m_length)).symm

/-- Reading a field of an element is reading the element of the mapped list. -/
theorem getD_sampleStart_eq (l : List SigMFFileCapture) (k : Nat) :
    (l.getD k {}).m_sampleStart = (l.map (·.m_sampleStart)).getD k 0 :=
  (List.getD_map (l := l) (d := ({} : SigMFFileCapture)) (n := k) (·.m_sampleStart)).symm

/-- C3: for a non-empty list of captures that all declare length 0, with the
first start at 0, ascending starts and the last start at most the total number
of samples, `extractCaptures` succeeds, keeps the starts, gives every capture
but the last the distance to the next start and gives the last one the
distance to the total number of samples. -/
theorem extractCaptures_all_unknown (self : SigMFFileInput) (metaRecord : MetaRecord)
    (hne : metaRecord.captures ≠ [])
    (hlen : ∀ c ∈ metaRecord.captures, c.length = 0)
    (hrate : ∀ c ∈ metaRecord.captures,
      captureSampleRate metaRecord.global_sample_rate c ≠ 0)
    (hfirst : ∀ c, metaRecord.captures.head? = some c → c.sample_start = 0)
    (hasc : (metaRecord.captures.map (·.sample_start)).Pairwise (· ≤ ·))
    (hlast : ∀ c, metaRecord.captures.getLast? = some c →
      c.sample_start ≤ self.m_totalSamples)
    (htot : self.m_totalSamples < U64) :
    ∃ self', extractCaptures self metaRecord = some self' ∧
      self'.m_captures.length = metaRecord.captures.length ∧
      self'.m_captures.map (·.m_sampleStart) = metaRecord.captures.map (·.sample_start) ∧
      (∀ k, k + 1 < self'.m_captures.length →
        (self'.m_captures.getD k {}).m_length =
          (self'.m_captures.getD (k + 1) {}).m_sampleStart -
            (self'.m_captures.getD k {}).m_sampleStart) ∧
      (self'.m_captures.getD (self'.m_captures.length - 1) {}).m_length =
        self.m_totalSamples -
          (self'.m_captures.getD (self'.m_captures.length - 1) {}).m_sampleStart := by
  obtain ⟨g, caps⟩ := metaRecord
  cases caps with
  | nil => exact absurd rfl hne
  | cons r0 rs =>
    simp only at hlen hrate hfirst hasc hlast
    have hr0 : r0.sample_start = 0 := hfirst r0 rfl
    -- every start is at most the last one, hence below 2^64
    obtain ⟨z, hz⟩ : ∃ z, (r0 :: rs).getLast? = some z := by
      cases h : (r0 :: rs).getLast? with
      | none => simp at h
      | some z => exact ⟨z, rfl⟩
    have hzl : ((r0 :: rs).map (·.sample_start)).getLast? = some z.sample_start := by
      rw [List.getLast?_map, hz]; rfl
    have hbnd : ∀ c ∈ r0 :: rs, c.sample_start ≤ self.m_totalSamples := by
      intro c hc
      have := le_getLast_of_pairwise _ _ hasc hzl c.sample_start (List.mem_map_of_mem _ hc)
      exact le_trans this (hlast z hz)
    -- first iteration
    obtain ⟨s1, hs1, hc1, hi1, hl1, hst1⟩ :=
      extractCapturesBody_first g
        { m_captures := [], m_captureStarts := self.m_captureStarts, lastSampleStart := 0,
          i := 0, cumulativeTime := 0 } r0 rfl rfl (hrate r0 (List.mem_cons_self _ _))
    -- remaining iterations
    obtain ⟨s', tail, q, hfold, hcaps', hq, _, hmapS, hmapL⟩ :=
      extractCapturesLoop_unknown g rs s1 [] (pushedCapture g 0 r0) (by simpa using hc1)
        (by simpa using hi1) (hlen r0 (List.mem_cons_self _ _))
        (by rw [hl1]; exact hr0.symm)
        (fun c hc => hlen c (List.mem_cons_of_mem _ hc))
        (fun c hc => hrate c (List.mem_cons_of_mem _ hc))
        (fun c hc => lt_of_le_of_lt (hbnd c (List.mem_cons_of_mem _ hc)) htot)
        (by simpa [pushedCapture] using hasc)
    have hm0 : (pushedCapture g 0 r0).m_sampleStart = r0.sample_start := rfl
    rw [hm0] at hmapS hmapL
    simp only [List.nil_append] at hcaps'
    -- the start of the last capture is the last declared start
    have hqz : q.m_sampleStart = z.sample_start := by
      have h1 : ((tail ++ [q]).map (·.m_sampleStart)).getLast? = some q.m_sampleStart := by
        simp
      rw [hmapS] at h1
      have h2 : (r0.sample_start :: rs.map (·.sample_start)).getLast? = some z.sample_start := by
        simpa using hzl
      rw [h2] at h1
      exact (Option.some.inj h1).symm
    have hqle : q.m_sampleStart ≤ self.m_totalSamples := hqz ▸ hlast z hz
    have hsubq : subU64 self.m_totalSamples q.m_sampleStart =
        self.m_totalSamples - q.m_sampleStart := subU64_eq_sub _ _ hqle htot
    have hres : extractCaptures self { global_sample_rate := g, captures := r0 :: rs } =
        some { self with
          m_captures := tail ++ [{ q with m_length := self.m_totalSamples - q.m_sampleStart }]
          m_captureStarts := s'.m_captureStarts } := by
      unfold extractCaptures
      simp only [List.foldlM_cons, hs1, Option.bind_eq_bind, Option.some_bind, hfold, hcaps',
        List.getLast?_concat, hq, if_true, hsubq]
      simp
    have hlenS : (tail ++ [q]).length = (r0 :: rs).length := by
      have := congrArg List.length hmapS
      simpa using this
    have htl : tail.length = rs.length := by simpa using hlenS
    refine ⟨_, hres, ?_, ?_, ?_, ?_⟩
    · simpa using hlenS
    · simpa using hmapS
    · intro k hk
      have hk' : k < tail.length := by simpa using hk
      have hkr : k < (rs.map (·.sample_start)).length := by simpa [htl] using hk'
      have hS : ∀ j, ((tail ++ [{ q with m_length := self.m_totalSamples - q.m_sampleStart }]).getD
          j {}).m_sampleStart = (r0.sample_start :: rs.map (·.sample_start)).getD j 0 := by
        intro j
        rw [getD_sampleStart_eq, ← hmapS]
        simp
      rw [hS k, hS (k + 1), getD_length_eq, List.map_append,
        List.getD_append _ _ _ _ (by simpa using hk'), hmapL,
        getD_zipWith_gap _ _ _ hkr]
      simp
    · have hidx : (tail ++ [{ q with m_length := self.m_totalSamples - q.m_sampleStart }]).length - 1
          = tail.length := by simp
      simp only [hidx]
      rw [List.getD_append_right _ _ _ _ (le_refl _)]
      simp

/-- Witness of C3: the captures `[{start 0, length 0}, {start 1000, length 0}]`
in a file of 5000 samples get the lengths `[1000, 4000]`. -/
theorem extractCaptures_all_unknown_witness :
    (∃ self', extractCaptures { m_settings := ⟨"", 1, false, false⟩, m_totalSamples := 5000 }
        { global_sample_rate := 1000
          captures := [{ sample_start := 0, length := 0 }, { sample_start := 1000, length := 0 }] }
          = some self' ∧
      self'.m_captures.length = 2 ∧
      self'.m_captures.map (·.m_sampleStart) = [0, 1000] ∧
      (∀ k, k + 1 < self'.m_captures.length →
        (self'.m_captures.getD k {}).m_length =
          (self'.m_captures.getD (k + 1) {}).m_sampleStart -
            (self'.m_captures.getD k {}).m_sampleStart) ∧
      (self'.m_captures.getD (self'.m_captures.length - 1) {}).m_length =
        5000 - (self'.m_captures.getD (self'.m_captures.length - 1) {}).m_sampleStart) ∧
    (extractCaptures { m_settings := ⟨"", 1, false, false⟩, m_totalSamples := 5000 }
        { global_sample_rate := 1000
          captures := [{ sample_start := 0, length := 0 }, { sample_start := 1000, length := 0 }] }
      ).map (fun self' => self'.m_captures.map (·.m_length)) = some [1000, 4000] :=
  ⟨extractCaptures_all_unknown { m_settings := ⟨"", 1, false, false⟩, m_totalSamples := 5000 }
      { global_sample_rate := 1000
        captures := [{ sample_start := 0, length := 0 }, { sample_start := 1000, length := 0 }] }
      (by decide) (by decide) (by decide) (by decide) (by decide) (by decide) (by decide),
    by decide⟩

/-! ## Timeline construction: defects shown on concrete recordings -/

/-- C1: on the well-formed captures `[{start 0, length 1000}, {start 1000,
length 0}, {start 3000, length 0}]` of a file of 5000 samples the resolved
lengths are `[1000, 3000, 2000]`, whose sum is 6000 and not 5000: the second
capture is measured from the stale `lastSampleStart = 0`. -/
theorem extractCaptures_sum_after_declared_length :
    (extractCaptures { m_settings := ⟨"", 1, false, false⟩, m_totalSamples := 5000 }
        { global_sample_rate := 1000
          captures := [{ sample_start := 0, length := 1000 }, { sample_start := 1000, length := 0 },
            { sample_start := 3000, length := 0 }] }
      ).map (fun self' => (self'.m_captures.map (·.m_length),
        (self'.m_captures.map (·.m_length)).sum)) = some ([1000, 3000, 2000], 6000) ∧
    (6000 : Nat) ≠ 5000 := by
  decide

/-- C2: in the captures `[{start 0, length 500}, {start 500, length 0},
{start 2000, length 700}]` the second capture declares length 0 and is not
the last; it is resolved to 2000, the distance from sample 0, and not to
`2000 - 500 = 1500`, the distance from its own start. -/
theorem extractCaptures_gap_after_declared_length :
    (extractCaptures { m_settings := ⟨"", 1, false, false⟩, m_totalSamples := 2700 }
        { global_sample_rate := 1000
          captures := [{ sample_start := 0, length := 500 }, { sample_start := 500, length := 0 },
            { sample_start := 2000, length := 700 }] }
      ).map (fun self' => (self'.m_captures.getD 1 {}).m_length) = some 2000 ∧
    (2000 : Nat) ≠ 2000 - 500 := by
  decide

/-- C4: on the captures `[{start 0, length 0}, {start 1000, length 0}]` at
1000 samples per second in a file of 5000 samples, the first capture is
resolved to 1000 samples, that is 1000 ms, but the cumulative time of the
second capture is 0: the loop adds the duration of a capture before its
length is resolved. -/
theorem extractCaptures_cumulativeTime_before_resolution :
    (extractCaptures { m_settings := ⟨"", 1, false, false⟩, m_totalSamples := 5000 }
        { global_sample_rate := 1000
          captures := [{ sample_start := 0, length := 0 }, { sample_start := 1000, length := 0 }] }
      ).map (fun self' => (self'.m_captures.map (·.m_length),
        self'.m_captures.map (·.m_sampleRate),
        self'.m_captures.map (·.m_cumulativeTime))) = some ([1000, 4000], [1000, 1000], [0, 0]) ∧
    (0 : Nat) ≠ (1000 * 1000) / 1000 := by
  decide

/-! ## Timeline construction: the list of starts -/

/-- The resolution step keeps the number of captures. -/
theorem resolvePrevious_length (caps caps1 : List SigMFFileCapture) (i last last1 : Nat)
    (h : resolvePrevious caps i last = some (caps1, last1)) : caps1.length = caps.length := by
  unfold resolvePrevious at h
  split at h
  · split at h
    · exact absurd h (by simp)
    · split at h
      · split at h
        · exact absurd h (by simp)
        · simp only [Option.some.injEq, Prod.mk.injEq] at h
          rw [← h.1]
          simp
      · simp only [Option.some.injEq, Prod.mk.injEq] at h
        rw [h.1]
  · simp only [Option.some.injEq, Prod.mk.injEq] at h
    rw [h.1]

/-- One iteration of the loop appends the start of its descriptor to
`m_captureStarts` and one capture to `m_captures`. -/
theorem extractCapturesBody_starts (g : ℚ) (s s' : ExtractLoop) (it : CaptureDescr)
    (h : extractCapturesBody g s it = some s') :
    s'.m_captureStarts = s.m_captureStarts ++ [it.sample_start] ∧
    s'.m_captures.length = s.m_captures.length + 1 := by
  unfold extractCapturesBody at h
  simp only at h
  split at h
  · exact absurd h (by simp)
  · rename_i caps1 last1 hres
    have hl := resolvePrevious_length _ _ _ _ _ hres
    split at h
    · exact absurd h (by simp)
    · split at h
      · exact absurd h (by simp)
      · simp only [Option.some.injEq] at h
        rw [← h]
        simp [hl]

/-- The loop appends the starts of all its descriptors, in order. -/
theorem extractCapturesLoop_starts (g : ℚ) :
    ∀ (rs : List CaptureDescr) (s s' : ExtractLoop),
      List.foldlM (extractCapturesBody g) s rs = some s' →
      s'.m_captureStarts = s.m_captureStarts ++ rs.map (·.sample_start) ∧
      s'.m_captures.length = s.m_captures.length + rs.length := by
  intro rs
  induction rs with
  | nil =>
    intro s s' h
    simp only [List.foldlM_nil] at h
    cases h
    simp
  | cons r rs ih =>
    intro s s' h
    rw [List.foldlM_cons] at h
    cases hb : extractCapturesBody g s r with
    | none => rw [hb] at h; exact absurd h (by simp)
    | some s1 =>
      rw [hb] at h
      obtain ⟨h1, h2⟩ := extractCapturesBody_starts g s s1 r hb
      obtain ⟨h3, h4⟩ := ih s1 s' (by simpa using h)
      constructor
      · rw [h3, h1]; simp
      · rw [h4, h2]; simp; omega

/-- After `extractCaptures` the list of starts is the former list followed by
the starts of the captures of the record, there is one capture per
descriptor and at least one, and the total number of samples is unchanged. -/
theorem extractCaptures_captureStarts (self self' : SigMFFileInput) (metaRecord : MetaRecord)
    (h : extractCaptures self metaRecord = some self') :
    self'.m_captureStarts =
      self.m_captureStarts ++ metaRecord.captures.map (·.sample_start) ∧
    self'.m_captures.length = metaRecord.captures.length ∧
    metaRecord.captures ≠ [] ∧
    self'.m_totalSamples = self.m_totalSamples := by
  unfold extractCaptures at h
  simp only at h
  split at h
  · exact absurd h (by simp)
  · rename_i s hfold
    obtain ⟨h1, h2⟩ := extractCapturesLoop_starts _ _ _ _ hfold
    simp only [List.length_nil, Nat.zero_add] at h2
    split at h
    · exact absurd h (by simp)
    · rename_i back hback
      have hcne : metaRecord.captures ≠ [] := by
        intro hnil
        rw [hnil] at h2
        have : s.m_captures = [] := List.length_eq_zero.mp h2
        rw [this] at hback
        exact absurd hback (by simp)
      split at h
      · simp only [Option.some.injEq] at h
        rw [← h]
        exact ⟨h1, by simpa using h2, hcne, rfl⟩
      · simp only [Option.some.injEq] at h
        rw [← h]
        exact ⟨h1, h2, hcne, rfl⟩

/-! ## Round trip between samples and tracks -/

/-- C8: a file-seek command with value 500 on an open stream of 5000 samples
of 2 bytes gives the worker the sample count `5000 * 500 / 1000 = 2500` and
selects the track of sample 2500, but moves the file cursor to byte 2000,
that is to sample 500, the raw value of the command: the handler calls
`seekFileStream(seekMillis)`. `seekFileMillis` on the same state moves the
cursor to byte 10000, that is to sample 2500. -/
theorem handleMessage_fileSeek_cursor :
    (handleMessage
        { m_settings := ⟨"", 1, false, false⟩, m_dataStreamOpen := true, m_sampleBytes := 2,
          m_totalSamples := 5000, m_captureStarts := [0, 1000],
          m_captures := [{ m_sampleStart := 0, m_length := 1000, m_sampleRate := 1000 },
            { m_sampleStart := 1000, m_length := 4000, m_sampleRate := 1000,
              m_cumulativeTime := 1000 }],
          m_fileInputThread := some { m_running := true } }
        (.MsgConfigureFileSeek 500)).map
      (fun s => (s.m_dataStreamPos, s.m_currentTrackIndex,
        s.m_fileInputThread.map (·.m_samplesCount))) = some (2000, 1, some 2500) ∧
    (seekFileMillis
        { m_settings := ⟨"", 1, false, false⟩, m_dataStreamOpen := true, m_sampleBytes := 2,
          m_totalSamples := 5000, m_captureStarts := [0, 1000],
          m_captures := [{ m_sampleStart := 0, m_length := 1000, m_sampleRate := 1000 },
            { m_sampleStart := 1000, m_length := 4000, m_sampleRate := 1000,
              m_cumulativeTime := 1000 }],
          m_fileInputThread := some { m_running := true } } 500).m_dataStreamPos = 10000 ∧
    (2000 : Nat) ≠ 2500 * 2 * 2 := by
  decide

/-- Conversion to `uint64_t` of a natural number in range. -/
theorem toU64_natCast (m : Nat) (hm : m < U64) : toU64 (m : Int) = m := by
  unfold toU64
  have h2 : (m : Int) % (U64 : Int) = (m : Int) := by
    apply Int.emod_eq_of_lt
    · omega
    · exact_mod_cast hm
  rw [h2]
  simp

/-- The track offset computed in `uint64_t` is the exact value
`start + length * millis / 1000` when neither the product nor the sum leaves
the range. -/
theorem trackOffset_exact (start length m : Nat) (hprod : length * m < U64)
    (hsum : start + length * m / 1000 < U64) :
    addU64 start (mulU64 length (toU64 (m : Int)) / 1000) = start + length * m / 1000 := by
  rcases Nat.eq_zero_or_pos length with hz | hpos
  · subst hz
    simp only [mulU64, addU64, Nat.zero_mul, Nat.zero_mod, Nat.zero_div, Nat.add_zero] at *
    exact Nat.mod_eq_of_lt hsum
  · have hm : m < U64 := by
      calc m ≤ length * m := Nat.le_mul_of_pos_left m hpos
        _ < U64 := hprod
    rw [toU64_natCast m hm]
    unfold mulU64 addU64
    rw [Nat.mod_eq_of_lt hprod, Nat.mod_eq_of_lt hsum]

/-- Two multiplications in `uint64_t` are the product modulo `2^64`. -/
theorem mulU64_mulU64 (a b c : Nat) : mulU64 (mulU64 a b) c = (a * b * c) % U64 := by
  unfold mulU64
  rw [Nat.mod_mul_mod]

/-- On an open stream a seek whose byte offset stays below `2^63` puts the
read position at `sampleIndex * m_sampleBytes * 2` and changes nothing else. -/
theorem seekFileStream_of_lt (self : SigMFFileInput) (sampleIndex : Nat)
    (hopen : self.m_dataStreamOpen = true)
    (hbyte : sampleIndex * self.m_sampleBytes * 2 < 9223372036854775808) :
    seekFileStream self sampleIndex =
      { self with m_dataStreamPos := sampleIndex * self.m_sampleBytes * 2 } := by
  have hmod : mulU64 (mulU64 sampleIndex self.m_sampleBytes) 2 =
      sampleIndex * self.m_sampleBytes * 2 := by
    rw [mulU64_mulU64]
    apply Nat.mod_eq_of_lt
    unfold U64
    omega
  unfold seekFileStream
  simp only [hopen, if_true, hmod, hbyte]

/-- A seek changes at most the read position. -/
theorem seekFileStream_frame (self : SigMFFileInput) (sampleIndex : Nat) :
    ∃ pos, seekFileStream self sampleIndex = { self with m_dataStreamPos := pos } := by
  unfold seekFileStream
  simp only
  split
  · split
    · exact ⟨_, rfl⟩
    · exact ⟨self.m_dataStreamPos, by cases self; rfl⟩
  · exact ⟨self.m_dataStreamPos, by cases self; rfl⟩

/-- Counterexample to C10 as stated: a session is opened (the stream stands
at its end, byte 12000), started, moved by a track seek to byte 6000 and
stopped; the cursor is still at byte 6000. The next `start` succeeds and puts
the cursor at byte 0: playback does not resume at byte 6000. -/
theorem start_after_stop_restarts_at_zero :
    ∃ s1 s2 s4,
      start
        { m_settings := ⟨"", 1, false, false⟩, m_dataStreamOpen := true, m_dataStreamPos := 12000,
          m_sampleBytes := 2, m_totalSamples := 3000, m_captureStarts := [0],
          m_captures := [{ m_sampleStart := 0, m_length := 3000, m_sampleRate := 1000 }] }
        8 true = (true, s1) ∧
      s1.m_dataStreamPos = 0 ∧
      handleMessage s1 (.MsgConfigureTrackSeek 500) = some s2 ∧
      s2.m_dataStreamPos = 6000 ∧
      (stop s2).m_dataStreamPos = 6000 ∧
      (stop s2).m_fileInputThread = none ∧
      start (stop s2) 8 true = (true, s4) ∧
      s4.m_dataStreamPos = 0 ∧
      s4.m_dataStreamPos ≠ (stop s2).m_dataStreamPos :=
  ⟨_, _, _, rfl, by decide, rfl, by decide, by decide, by decide, rfl, by decide, by decide⟩

/-- C10, amended: on an open data stream every `start` leaves the cursor at
byte 0, whatever the cursor was and whether or not the sample queue could be
sized; `stop` does not move the cursor, so a `start` that follows a `stop`
puts the cursor at byte 0 as well. -/
theorem start_resets_cursor (self : SigMFFileInput) (sizeofSample : Nat) (fifoSetSize : Bool)
    (hopen : self.m_dataStreamOpen = true) :
    (start self sizeofSample fifoSetSize).2.m_dataStreamPos = 0 ∧
    (stop self).m_dataStreamPos = self.m_dataStreamPos ∧
    (stop self).m_dataStreamOpen = true ∧
    (start (stop self) sizeofSample fifoSetSize).2.m_dataStreamPos = 0 := by
  have hstart : ∀ s : SigMFFileInput, s.m_dataStreamOpen = true →
      (start s sizeofSample fifoSetSize).2.m_dataStreamPos = 0 := by
    intro s hs
    unfold start
    by_cases hp : s.m_dataStreamPos = 0 <;> cases fifoSetSize <;> simp [hs, hp]
  have hstop : (stop self).m_dataStreamPos = self.m_dataStreamPos ∧
      (stop self).m_dataStreamOpen = self.m_dataStreamOpen := by
    unfold stop
    cases self.m_fileInputThread <;> simp
  exact ⟨hstart self hopen, hstop.1, hstop.2.trans hopen, hstart _ (hstop.2.trans hopen)⟩

/-- Witness of C10, amended: an open stream standing at byte 6000 with a
running worker. -/
theorem start_resets_cursor_witness :
    (start
        { m_settings := ⟨"", 1, false, false⟩, m_dataStreamOpen := true,
          m_dataStreamPos := 6000, m_fileInputThread := some { m_running := true } }
        8 true).2.m_dataStreamPos = 0 ∧
    (stop
        { m_settings := ⟨"", 1, false, false⟩, m_dataStreamOpen := true,
          m_dataStreamPos := 6000, m_fileInputThread := some { m_running := true } }
      ).m_dataStreamPos = 6000 ∧
    (stop
        { m_settings := ⟨"", 1, false, false⟩, m_dataStreamOpen := true,
          m_dataStreamPos := 6000, m_fileInputThread := some { m_running := true } }
      ).m_dataStreamOpen = true ∧
    (start
        (stop
          { m_settings := ⟨"", 1, false, false⟩, m_dataStreamOpen := true,
            m_dataStreamPos := 6000, m_fileInputThread := some { m_running := true } })
        8 true).2.m_dataStreamPos = 0 :=
  start_resets_cursor
    { m_settings := ⟨"", 1, false, false⟩, m_dataStreamOpen := true,
      m_dataStreamPos := 6000, m_fileInputThread := some { m_running := true } }
    8 true (by decide)

/-! ## Message handling: the recorded calls -/

/-- The state computed along with the recorded calls is the state that
`handleMessage` computes. -/
theorem handleMessageTraced_state (self : SigMFFileInput) (msg : Message) :
    (handleMessageTraced self msg).map (·.1) = handleMessage self msg := by
  cases msg with
  | MsgConfigureTrackSeek m =>
    simp only [handleMessageTraced, handleMessage, tracedSeekTrackMillis, seekTrackMillis,
      tracedSeekFileStream]
    cases capturesAt self.m_captures self.m_currentTrackIndex with
    | none => rfl
    | some cap =>
      simp only
      cases (seekFileStream self
          (addU64 cap.m_sampleStart (mulU64 cap.m_length (toU64 m) / 1000))).m_fileInputThread with
      | none => rfl
      | some t =>
        simp only
        cases capturesAt (seekFileStream self
          (addU64 cap.m_sampleStart (mulU64 cap.m_length (toU64 m) / 1000))).m_captures
          (seekFileStream self
          (addU64 cap.m_sampleStart (mulU64 cap.m_length (toU64 m) / 1000))).m_currentTrackIndex with
        | none => cases t.isRunning <;> rfl
        | some c => cases t.isRunning <;> rfl
  | MsgConfigureFileSeek m =>
    simp only [handleMessageTraced, handleMessage, tracedSeekFileStream]
    cases (seekFileStream self (toU64 m)).m_fileInputThread with
    | none => rfl
    | some t =>
      simp only
      cases t.isRunning <;> rfl
  | MsgConfigureTrackIndex i => rfl
  | MsgConfigureTrackWork w =>
    simp only [handleMessageTraced, handleMessage]
    cases self.m_fileInputThread with
    | none => rfl
    | some t =>
      simp only
      cases w with
      | false => rfl
      | true =>
        simp only [if_true]
        cases capturesAt self.m_captures self.m_currentTrackIndex <;> rfl
  | MsgConfigureFileWork w =>
    simp only [handleMessageTraced, handleMessage]
    cases self.m_fileInputThread with
    | none => rfl
    | some t =>
      simp only
      cases w <;> rfl
  | MsgReportEOF =>
    simp only [handleMessageTraced, handleMessage]
    cases self.m_fileInputThread with
    | none => rfl
    | some t =>
      simp only
      cases self.m_trackMode <;> cases self.m_settings.m_trackLoop <;>
        cases self.m_settings.m_fullLoop <;> cases t.isRunning <;>
        cases capturesAt self.m_captures self.m_currentTrackIndex <;> rfl
  | MsgReportTrackChange i => rfl

/-! ## End of stream -/

/-- Stopping and restarting a running worker gives the worker back. -/
theorem startWork_stopWork_of_running (thread : SigMFFileInputThread)
    (hrun : thread.m_running = true) : thread.stopWork.startWork = thread := by
  cases thread
  simp_all [SigMFFileInputThread.stopWork, SigMFFileInputThread.startWork]

/-- Counterexample to C11 as stated: in track mode with `m_trackLoop` off, and
in file mode with `m_fullLoop` off, the end-of-stream report on a running
worker makes the calls `stopWork`, `startWork`: the worker is running again
after the report. -/
theorem handleMessage_eof_no_loop_restarts :
    (handleMessageTraced
        { m_settings := ⟨"", 1, false, false⟩, m_trackMode := true, m_dataStreamOpen := true,
          m_fileInputThread := some { m_running := true } }
        .MsgReportEOF).map (fun r => (r.2, r.1.m_fileInputThread.map (·.m_running))) =
      some ([Action.stopWork, Action.startWork], some true) ∧
    (handleMessageTraced
        { m_settings := ⟨"", 1, false, false⟩, m_trackMode := false, m_dataStreamOpen := true,
          m_fileInputThread := some { m_running := true } }
        .MsgReportEOF).map (fun r => (r.2, r.1.m_fileInputThread.map (·.m_running))) =
      some ([Action.stopWork, Action.startWork], some true) := by
  decide

/-- C11, amended: on the end-of-stream report with no applicable loop policy
(track mode with `m_trackLoop` off, or file mode with `m_fullLoop` off) the
handler seeks nothing and leaves the controller and the worker as they were:
a running worker is stopped and started again, a stopped worker sees no call
and remains stopped. -/
theorem handleMessage_eof_no_loop (self : SigMFFileInput) (thread : SigMFFileInputThread)
    (hth : self.m_fileInputThread = some thread)
    (hpol : (self.m_trackMode = true ∧ self.m_settings.m_trackLoop = false) ∨
      (self.m_trackMode = false ∧ self.m_settings.m_fullLoop = false)) :
    handleMessageTraced self .MsgReportEOF =
      some (self, if thread.m_running then [Action.stopWork, Action.startWork] else []) ∧
    handleMessage self .MsgReportEOF = some self := by
  have htr : handleMessageTraced self .MsgReportEOF =
      some (self, if thread.m_running then [Action.stopWork, Action.startWork] else []) := by
    cases self
    simp only at hth hpol
    subst hth
    simp only [handleMessageTraced, SigMFFileInputThread.isRunning]
    by_cases hrun : thread.m_running = true
    · rcases hpol with ⟨hm, hl⟩ | ⟨hm, hl⟩ <;>
        simp [hm, hl, hrun, tracedStopWork, tracedStartWork,
          startWork_stopWork_of_running thread hrun]
    · rcases hpol with ⟨hm, hl⟩ | ⟨hm, hl⟩ <;>
        simp [hm, hl, hrun]
  refine ⟨htr, ?_⟩
  rw [← handleMessageTraced_state, htr]
  rfl

/-- Witness of C11, amended: track mode with `m_trackLoop` off and a running
worker. -/
theorem handleMessage_eof_no_loop_witness :
    handleMessageTraced
        { m_settings := ⟨"", 1, false, false⟩, m_trackMode := true, m_dataStreamOpen := true,
          m_fileInputThread := some { m_running := true } }
        .MsgReportEOF =
      some ({ m_settings := ⟨"", 1, false, false⟩, m_trackMode := true, m_dataStreamOpen := true,
              m_fileInputThread := some { m_running := true } },
        if ({ m_running := true } : SigMFFileInputThread).m_running then
          [Action.stopWork, Action.startWork] else []) ∧
    handleMessage
        { m_settings := ⟨"", 1, false, false⟩, m_trackMode := true, m_dataStreamOpen := true,
          m_fileInputThread := some { m_running := true } }
        .MsgReportEOF =
      some { m_settings := ⟨"", 1, false, false⟩, m_trackMode := true, m_dataStreamOpen := true,
             m_fileInputThread := some { m_running := true } } :=
  handleMessage_eof_no_loop
    { m_settings := ⟨"", 1, false, false⟩, m_trackMode := true, m_dataStreamOpen := true,
      m_fileInputThread := some { m_running := true } }
    { m_running := true } rfl (Or.inl ⟨rfl, rfl⟩)

/-- C13: on the end-of-stream report in file mode with `m_fullLoop` on, with
the second track current and a running worker, the cursor goes to byte 0, the
worker gets track index 0 and is started again, but `m_currentTrackIndex` of
the controller is still 1: only the worker's index is reset. -/
theorem handleMessage_eof_fullLoop_trackIndex :
    (handleMessageTraced
        { m_settings := ⟨"", 1, false, true⟩, m_trackMode := false, m_dataStreamOpen := true,
          m_dataStreamPos := 20000, m_sampleBytes := 2, m_totalSamples := 5000,
          m_currentTrackIndex := 1, m_captureStarts := [0, 1000],
          m_captures := [{ m_sampleStart := 0, m_length := 1000, m_sampleRate := 1000 },
            { m_sampleStart := 1000, m_length := 4000, m_sampleRate := 1000 }],
          m_fileInputThread := some { m_running := true, m_trackIndex := 1 } }
        .MsgReportEOF).map
      (fun r => (r.2, r.1.m_dataStreamPos, r.1.m_fileInputThread.map (·.m_trackIndex),
        r.1.m_fileInputThread.map (·.m_running), r.1.m_currentTrackIndex)) =
      some ([Action.stopWork, Action.seekFileStream 0, Action.setTrackIndex 0, Action.startWork],
        0, some 0, some true, 1) ∧
    (1 : Int) ≠ 0 := by
  decide

/-! ## Order of the calls of the seek handlers -/

/-- Counterexample to C14 as stated: with a running worker, the track seek
and the file seek each call `seekFileStream` first and `stopWork` after it: the
cursor is repositioned while the worker is running. -/
theorem seek_handlers_seek_before_stop :
    (handleMessageTraced
        { m_settings := ⟨"", 1, false, false⟩, m_dataStreamOpen := true, m_sampleBytes := 2,
          m_totalSamples := 5000, m_currentTrackIndex := 1, m_captureStarts := [0, 1000],
          m_captures := [{ m_sampleStart := 0, m_length := 1000, m_sampleRate := 1000 },
            { m_sampleStart := 1000, m_length := 4000, m_sampleRate := 1000 }],
          m_fileInputThread := some { m_running := true } }
        (.MsgConfigureTrackSeek 500)).map (fun r => (r.2, seeksWhileRunning true r.2)) =
      some ([Action.seekFileStream 3000, Action.stopWork, Action.setSamplesCount 3000,
        Action.startWork], true) ∧
    (handleMessageTraced
        { m_settings := ⟨"", 1, false, false⟩, m_dataStreamOpen := true, m_sampleBytes := 2,
          m_totalSamples := 5000, m_currentTrackIndex := 1, m_captureStarts := [0, 1000],
          m_captures := [{ m_sampleStart := 0, m_length := 1000, m_sampleRate := 1000 },
            { m_sampleStart := 1000, m_length := 4000, m_sampleRate := 1000 }],
          m_fileInputThread := some { m_running := true } }
        (.MsgConfigureFileSeek 500)).map (fun r => (r.2, seeksWhileRunning true r.2)) =
      some ([Action.seekFileStream 500, Action.stopWork, Action.setTrackIndex 1,
        Action.setSamplesCount 2500, Action.startWork], true) := by
  decide

/-- A handler run whose recorded calls are known has some resulting state. -/
theorem exists_state_of_calls (o : Option (SigMFFileInput × List Action)) (tr : List Action)
    (h : o.map (·.2) = some tr) : ∃ s', o = some (s', tr) := by
  cases o with
  | none => simp at h
  | some r =>
    obtain ⟨s', tr'⟩ := r
    simp only [Option.map_some', Option.some.injEq] at h
    exact ⟨s', by rw [h]⟩

/-- C14, amended: with a running worker the track seek and the file seek first
reposition the file cursor with `seekFileStream` and only then stop the worker,
set the worker's sample count or track index, and start the worker again: the
parameters of the worker are never set while it runs, but the cursor is
repositioned while it runs. -/
theorem seek_handlers_call_order (self : SigMFFileInput) (thread : SigMFFileInputThread)
    (hth : self.m_fileInputThread = some thread) (hrun : thread.m_running = true) :
    (∀ (m : Int) (cap : SigMFFileCapture),
      capturesAt self.m_captures self.m_currentTrackIndex = some cap →
      ∃ s' tr, handleMessageTraced self (.MsgConfigureTrackSeek m) = some (s', tr) ∧
        tr = [Action.seekFileStream
                (addU64 cap.m_sampleStart (mulU64 cap.m_length (toU64 m) / 1000)),
              Action.stopWork,
              Action.setSamplesCount
                (addU64 cap.m_sampleStart (mulU64 cap.m_length (toU64 m) / 1000)),
              Action.startWork] ∧
        setsWhileRunning true tr = false ∧ seeksWhileRunning true tr = true) ∧
    (∀ m : Int,
      ∃ s' tr, handleMessageTraced self (.MsgConfigureFileSeek m) = some (s', tr) ∧
        tr = [Action.seekFileStream (toU64 m),
              Action.stopWork,
              Action.setTrackIndex (getTrackIndex self.m_captureStarts
                (mulU64 self.m_totalSamples (toU64 m) / 1000)),
              Action.setSamplesCount (mulU64 self.m_totalSamples (toU64 m) / 1000),
              Action.startWork] ∧
        setsWhileRunning true tr = false ∧ seeksWhileRunning true tr = true) := by
  have hseekT : ∀ n, (seekFileStream self n).m_fileInputThread = some thread := by
    intro n
    obtain ⟨pos, hp⟩ := seekFileStream_frame self n
    rw [hp]
    exact hth
  have hseekC : ∀ n, (seekFileStream self n).m_captures = self.m_captures ∧
      (seekFileStream self n).m_currentTrackIndex = self.m_currentTrackIndex ∧
      (seekFileStream self n).m_captureStarts = self.m_captureStarts ∧
      (seekFileStream self n).m_totalSamples = self.m_totalSamples := by
    intro n
    obtain ⟨pos, hp⟩ := seekFileStream_frame self n
    rw [hp]
    exact ⟨rfl, rfl, rfl, rfl⟩
  refine ⟨?_, ?_⟩
  · intro m cap hcap
    have hmap : (handleMessageTraced self (.MsgConfigureTrackSeek m)).map (·.2) =
        some [Action.seekFileStream
                (addU64 cap.m_sampleStart (mulU64 cap.m_length (toU64 m) / 1000)),
              Action.stopWork,
              Action.setSamplesCount
                (addU64 cap.m_sampleStart (mulU64 cap.m_length (toU64 m) / 1000)),
              Action.startWork] := by
      simp [handleMessageTraced, tracedSeekTrackMillis, hcap, tracedSeekFileStream, hseekT,
        (hseekC _).1, (hseekC _).2.1, SigMFFileInputThread.isRunning, hrun,
        tracedStopWork, tracedSetSamplesCount, tracedStartWork]
    obtain ⟨s', hs'⟩ := exists_state_of_calls _ _ hmap
    exact ⟨s', _, hs', rfl, rfl, rfl⟩
  · intro m
    have hmap : (handleMessageTraced self (.MsgConfigureFileSeek m)).map (·.2) =
        some [Action.seekFileStream (toU64 m),
              Action.stopWork,
              Action.setTrackIndex (getTrackIndex self.m_captureStarts
                (mulU64 self.m_totalSamples (toU64 m) / 1000)),
              Action.setSamplesCount (mulU64 self.m_totalSamples (toU64 m) / 1000),
              Action.startWork] := by
      simp [handleMessageTraced, tracedSeekFileStream, hseekT, (hseekC _).2.2.1,
        (hseekC _).2.2.2, SigMFFileInputThread.isRunning, hrun, tracedStopWork,
        tracedSetTrackIndex, tracedSetSamplesCount, tracedStartWork]
    obtain ⟨s', hs'⟩ := exists_state_of_calls _ _ hmap
    exact ⟨s', _, hs', rfl, rfl, rfl⟩

/-- Witness of C14, amended: the file seek with value 500 on a stream of 5000
samples with a running worker. -/
theorem seek_handlers_call_order_witness :
    ∃ s' tr,
      handleMessageTraced
          { m_settings := ⟨"", 1, false, false⟩, m_dataStreamOpen := true, m_sampleBytes := 2,
            m_totalSamples := 5000, m_currentTrackIndex := 1, m_captureStarts := [0, 1000],
            m_captures := [{ m_sampleStart := 0, m_length := 1000, m_sampleRate := 1000 },
              { m_sampleStart := 1000, m_length := 4000, m_sampleRate := 1000 }],
            m_fileInputThread := some { m_running := true } }
          (.MsgConfigureFileSeek 500) = some (s', tr) ∧
      tr = [Action.seekFileStream (toU64 500),
            Action.stopWork,
            Action.setTrackIndex (getTrackIndex [0, 1000] (mulU64 5000 (toU64 500) / 1000)),
            Action.setSamplesCount (mulU64 5000 (toU64 500) / 1000),
            Action.startWork] ∧
      setsWhileRunning true tr = false ∧ seeksWhileRunning true tr = true :=
  (seek_handlers_call_order
    { m_settings := ⟨"", 1, false, false⟩, m_dataStreamOpen := true, m_sampleBytes := 2,
      m_totalSamples := 5000, m_currentTrackIndex := 1, m_captureStarts := [0, 1000],
      m_captures := [{ m_sampleStart := 0, m_length := 1000, m_sampleRate := 1000 },
        { m_sampleStart := 1000, m_length := 4000, m_sampleRate := 1000 }],
      m_fileInputThread := some { m_running := true } }
    { m_running := true } rfl rfl).2 500

/-! ## Track change reports -/

/-- C15: a fresh controller opens a record whose global rate is 1000000 and
whose only capture is at 100000000 Hz: the open announces `(1000000,
100000000)` downstream and leaves `m_sampleRate = 48000` and
`m_centerFrequency = 0`, which are not the rate and the frequency of track 0.
The handling of the report of track 0 on the state after the open is
undefined, as it is on every state: the branch of `MsgReportTrackChange` ends
without a `return` statement. -/
theorem handleMessage_trackChange_after_open :
    (openFileStreams { m_settings := ⟨"", 1, false, false⟩ }
        { dataOpen := true, dataFileSize := 4000, dataSha512 := ""
          metaRecord :=
            { global_sample_rate := 1000000, datatype := "ci16_le"
              captures := [{ frequency := 100000000, sample_start := 0, length := 0 }] } }
      ).map (fun r => (r.1, r.2.m_deviceEngineInputQueue, r.2.m_sampleRate,
        r.2.m_centerFrequency))
      = some (true, [⟨1000000, 100000000⟩], 48000, 0) ∧
    (openFileStreams { m_settings := ⟨"", 1, false, false⟩ }
        { dataOpen := true, dataFileSize := 4000, dataSha512 := ""
          metaRecord :=
            { global_sample_rate := 1000000, datatype := "ci16_le"
              captures := [{ frequency := 100000000, sample_start := 0, length := 0 }] } }
      ).map (fun r => r.2.m_captures.map (fun c => (c.m_sampleRate, c.m_centerFrequency)))
      = some [(1000000, 100000000)] ∧
    (openFileStreams { m_settings := ⟨"", 1, false, false⟩ }
        { dataOpen := true, dataFileSize := 4000, dataSha512 := ""
          metaRecord :=
            { global_sample_rate := 1000000, datatype := "ci16_le"
              captures := [{ frequency := 100000000, sample_start := 0, length := 0 }] } }
      ).bind (fun r => handleMessage r.2 (.MsgReportTrackChange 0)) = none ∧
    (∀ (self : SigMFFileInput) (n : Int), handleMessage self (.MsgReportTrackChange n) = none) := by
  refine ⟨by decide, by decide, by decide, fun _ _ => rfl⟩

/-! ## Opening a record: digest and closed state -/

/-- C17: a record that declares the digest `"aa"` while the data file has the
digest `"bb"`: `openFileStreams` returns `false` with `m_crcOK = false`, but the
data stream stays open. The next `start` returns `true` and creates a running
worker, and a track seek then moves the cursor from byte 0 to byte 2000. -/
theorem start_after_digest_mismatch :
    (openFileStreams { m_settings := ⟨"", 1, false, false⟩ }
        { dataOpen := true, dataFileSize := 4000, dataSha512 := "bb"
          metaRecord :=
            { global_sample_rate := 1000000, datatype := "ci16_le", sha512 := "aa"
              captures := [{ frequency := 100000000, sample_start := 0, length := 0 }] } }
      ).map (fun r => (r.1, r.2.m_crcAvailable, r.2.m_crcOK, r.2.m_dataStreamOpen))
      = some (false, true, false, true) ∧
    (openFileStreams { m_settings := ⟨"", 1, false, false⟩ }
        { dataOpen := true, dataFileSize := 4000, dataSha512 := "bb"
          metaRecord :=
            { global_sample_rate := 1000000, datatype := "ci16_le", sha512 := "aa"
              captures := [{ frequency := 100000000, sample_start := 0, length := 0 }] } }
      ).map (fun r => ((start r.2 8 true).1, (start r.2 8 true).2.m_dataStreamPos,
        (start r.2 8 true).2.m_fileInputThread.map (·.m_running)))
      = some (true, 0, some true) ∧
    ((openFileStreams { m_settings := ⟨"", 1, false, false⟩ }
        { dataOpen := true, dataFileSize := 4000, dataSha512 := "bb"
          metaRecord :=
            { global_sample_rate := 1000000, datatype := "ci16_le", sha512 := "aa"
              captures := [{ frequency := 100000000, sample_start := 0, length := 0 }] } }
      ).bind (fun r => handleMessage (start r.2 8 true).2 (.MsgConfigureTrackSeek 500))).map
        (fun s => s.m_dataStreamPos)
      = some 2000 := by
  decide

/-! ## Start without an open stream -/

/-- C18: when the data stream is not open, `start` returns `false` and the
state it returns is the state it was given: no worker is created and nothing
of the playback state changes. -/
theorem start_rejected_when_closed (self : SigMFFileInput) (sizeofSample : Nat)
    (fifoSetSize : Bool) (hclosed : self.m_dataStreamOpen = false) :
    start self sizeofSample fifoSetSize = (false, self) := by
  simp [start, hclosed]

/-- Witness of C18: a controller that never opened a record. -/
theorem start_rejected_when_closed_witness :
    start { m_settings := ⟨"", 1, false, false⟩ } 8 true =
      (false, { m_settings := ⟨"", 1, false, false⟩ }) :=
  start_rejected_when_closed { m_settings := ⟨"", 1, false, false⟩ } 8 true rfl

/-! ## Opening a record: what the steps keep -/

/-- A string has length 0 exactly when it is the empty string. -/
theorem string_length_eq_zero (str : String) : str.length = 0 ↔ str = "" := by
  constructor
  · intro h
    apply String.ext
    have hd : str.data.length = 0 := h
    simpa using List.length_eq_zero.mp hd
  · intro h
    subst h
    rfl

/-- After an iteration of the loop of `extractCaptures` the last capture has
a sample rate that is not zero. -/
theorem extractCapturesBody_back (g : ℚ) (s s' : ExtractLoop) (it : CaptureDescr)
    (h : extractCapturesBody g s it = some s') :
    ∃ back, s'.m_captures.getLast? = some back ∧ back.m_sampleRate ≠ 0 := by
  unfold extractCapturesBody at h
  simp only at h
  split at h
  · exact absurd h (by simp)
  · split at h
    · exact absurd h (by simp)
    · rename_i back hback
      split at h
      · exact absurd h (by simp)
      · rename_i hrate
        simp only [Option.some.injEq] at h
        rw [← h]
        exact ⟨back, hback, hrate⟩

/-- After the loop of `extractCaptures` over at least one descriptor the last
capture has a sample rate that is not zero. -/
theorem extractCapturesLoop_back (g : ℚ) :
    ∀ (rs : List CaptureDescr) (s s' : ExtractLoop),
      List.foldlM (extractCapturesBody g) s rs = some s' →
      (rs ≠ [] ∨ ∃ back, s.m_captures.getLast? = some back ∧ back.m_sampleRate ≠ 0) →
      ∃ back, s'.m_captures.getLast? = some back ∧ back.m_sampleRate ≠ 0 := by
  intro rs
  induction rs with
  | nil =>
    intro s s' h hor
    simp only [List.foldlM_nil] at h
    cases h
    rcases hor with hne | hb
    · exact absurd rfl hne
    · exact hb
  | cons r rs ih =>
    intro s s' h _
    rw [List.foldlM_cons] at h
    cases hb : extractCapturesBody g s r with
    | none => rw [hb] at h; exact absurd h (by simp)
    | some s1 =>
      rw [hb] at h
      exact ih s1 s' (by simpa using h) (Or.inr (extractCapturesBody_back g s s1 r hb))

/-- Replacing the last element of a non-empty list makes it the last element. -/
theorem getLast?_set_last (l : List SigMFFileCapture) (x : SigMFFileCapture) (hne : l ≠ []) :
    (l.set (l.length - 1) x).getLast? = some x := by
  have hpos : 0 < l.length := List.length_pos.mpr hne
  rw [List.getLast?_eq_getElem?, List.length_set, List.getElem?_set_self (by omega)]

/-- The state after `extractCaptures` is the state before it with new
`m_captures` and `m_captureStarts`; its last capture has a sample rate that is
not zero. -/
theorem extractCaptures_shape (self self' : SigMFFileInput) (metaRecord : MetaRecord)
    (h : extractCaptures self metaRecord = some self') :
    (∃ caps starts, self' = { self with m_captures := caps, m_captureStarts := starts }) ∧
    ∃ back, self'.m_captures.getLast? = some back ∧ back.m_sampleRate ≠ 0 := by
  obtain ⟨_, _, hcne, _⟩ := extractCaptures_captureStarts self self' metaRecord h
  unfold extractCaptures at h
  simp only at h
  split at h
  · exact absurd h (by simp)
  · rename_i s hfold
    obtain ⟨b, hb, hrate⟩ := extractCapturesLoop_back _ _ _ _ hfold (Or.inl hcne)
    split at h
    · exact absurd h (by simp)
    · rename_i back hback
      have hbb : b = back := by
        rw [hb] at hback
        exact Option.some.inj hback
      subst hbb
      have hsne : s.m_captures ≠ [] := by
        intro hnil
        rw [hnil] at hb
        exact absurd hb (by simp)
      split at h
      · simp only [Option.some.injEq] at h
        rw [← h]
        refine ⟨⟨_, _, rfl⟩, ⟨_, getLast?_set_last _ _ hsne, hrate⟩⟩
      · simp only [Option.some.injEq] at h
        rw [← h]
        exact ⟨⟨_, _, rfl⟩, ⟨b, hb, hrate⟩⟩

/-- What `extractMeta` stores of the record and what it keeps of the state. -/
theorem extractMeta_frame (self s1 : SigMFFileInput) (metaRecord : MetaRecord)
    (dataFileSize : Nat) (h : extractMeta self metaRecord dataFileSize = some s1) :
    s1.m_sha512 = metaRecord.sha512 ∧
    s1.m_settings = self.m_settings ∧
    s1.m_fileInputThread = self.m_fileInputThread ∧
    s1.m_sampleRate = self.m_sampleRate ∧
    s1.m_centerFrequency = self.m_centerFrequency ∧
    s1.m_dataStreamOpen = self.m_dataStreamOpen ∧
    s1.m_dataStreamPos = self.m_dataStreamPos := by
  unfold extractMeta at h
  simp only at h
  split at h
  · exact absurd h (by simp)
  · simp only [Option.some.injEq] at h
    rw [← h]
    simp

/-- C16: once the data file is open and the metadata can be loaded
(`extractMeta` and then `extractCaptures` are defined), `openFileStreams` returns
`false` exactly when a non-empty digest is declared and differs from the
digest of the data file; without a declared digest the open succeeds and the
integrity is marked unavailable; a successful open sets `m_recordLengthOK` to
the comparison of the total with the end of the last capture, which has no
part in the returned value. -/
theorem openFileStreams_result (self : SigMFFileInput) (files : RecordFiles)
    (hopen : files.dataOpen = true)
    (hload : ((extractMeta
      { self with m_dataStreamOpen := true, m_dataStreamPos := files.dataFileSize }
      files.metaRecord files.dataFileSize).bind
        (fun s1 => extractCaptures s1 files.metaRecord)).isSome = true) :
    ∃ r s' back,
      openFileStreams self files = some (r, s') ∧
      (r = false ↔
        (files.metaRecord.sha512 ≠ "" ∧ files.metaRecord.sha512 ≠ files.dataSha512)) ∧
      (files.metaRecord.sha512 = "" →
        r = true ∧ s'.m_crcAvailable = false ∧ crcStatus s' = 0) ∧
      (files.metaRecord.sha512 ≠ "" →
        s'.m_crcAvailable = true ∧
        s'.m_crcOK = decide (files.metaRecord.sha512 = files.dataSha512)) ∧
      s'.m_captures.getLast? = some back ∧
      (r = true →
        s'.m_recordLengthOK =
          decide (s'.m_totalSamples = addU64 back.m_sampleStart back.m_length)) := by
  obtain ⟨s1, hmeta, s2, hcap⟩ : ∃ s1, extractMeta
      { self with m_dataStreamOpen := true, m_dataStreamPos := files.dataFileSize }
      files.metaRecord files.dataFileSize = some s1 ∧
      ∃ s2, extractCaptures s1 files.metaRecord = some s2 := by
    cases hm : extractMeta
      { self with m_dataStreamOpen := true, m_dataStreamPos := files.dataFileSize }
      files.metaRecord files.dataFileSize with
    | none => rw [hm] at hload; simp at hload
    | some s1 =>
      rw [hm] at hload
      cases hc : extractCaptures s1 files.metaRecord with
      | none => simp [hc] at hload
      | some s2 => exact ⟨s1, rfl, s2, hc⟩
  obtain ⟨⟨caps, starts, hshape⟩, back, hback, hrate⟩ :=
    extractCaptures_shape s1 s2 files.metaRecord hcap
  have hsha : s2.m_sha512 = files.metaRecord.sha512 := by
    rw [hshape]
    exact (extractMeta_frame _ _ _ _ hmeta).1
  cases hres : openFileStreams self files with
  | none =>
    exfalso
    unfold openFileStreams at hres
    simp only [hopen, hmeta, hcap, hback, hrate] at hres
    by_cases hl : s2.m_sha512.length = 0
    · simp [hl] at hres
    · simp [hl] at hres
      split at hres <;> simp at hres
  | some p =>
    obtain ⟨r, s'⟩ := p
    refine ⟨r, s', back, rfl, ?_⟩
    unfold openFileStreams at hres
    simp only [hopen, hmeta, hcap, hback, hrate] at hres
    by_cases hl : s2.m_sha512.length = 0
    · have hs : files.metaRecord.sha512 = "" := by
        rw [← hsha]
        exact (string_length_eq_zero _).mp hl
      simp [hl] at hres
      obtain ⟨hr, hs'⟩ := hres
      subst hr
      subst hs'
      refine ⟨by simp [hs], fun _ => ⟨rfl, rfl, rfl⟩, fun hne => absurd hs hne, hback,
        fun _ => rfl⟩
    · have hs : files.metaRecord.sha512 ≠ "" := by
        rw [← hsha]
        intro h0
        exact hl ((string_length_eq_zero _).mpr h0)
      simp [hl] at hres
      split at hres
      · rename_i hd
        have hd' : files.metaRecord.sha512 = files.dataSha512 := hsha ▸ hd
        simp at hres
        obtain ⟨hr, hs'⟩ := hres
        subst hr
        subst hs'
        refine ⟨by simp [hd'], fun h => absurd h hs, fun _ => ⟨rfl, by simp [hd', hd]⟩, hback,
          fun _ => rfl⟩
      · rename_i hd
        have hd' : files.metaRecord.sha512 ≠ files.dataSha512 := hsha ▸ hd
        simp at hres
        obtain ⟨hr, hs'⟩ := hres
        subst hr
        subst hs'
        refine ⟨by simp [hs, hd'], fun h => absurd h hs, fun _ => ⟨rfl, by simp [hd', hd]⟩, hback,
          fun h => absurd h (by simp)⟩

/-- Witness of C16: a record without declared digest whose only capture
declares 500 samples in a data file of 1000 samples: the open succeeds, the
integrity is unavailable and the record-length flag is cleared. -/
theorem openFileStreams_result_witness :
    ∃ r s', openFileStreams { m_settings := ⟨"", 1, false, false⟩ }
        { dataOpen := true, dataFileSize := 4000, dataSha512 := "bb"
          metaRecord :=
            { global_sample_rate := 1000000, datatype := "ci16_le", sha512 := ""
              captures := [{ frequency := 100000000, sample_start := 0, length := 500 }] } }
          = some (r, s') ∧
      r = true ∧ s'.m_crcAvailable = false ∧ crcStatus s' = 0 ∧
      s'.m_totalSamples = 1000 ∧ s'.m_recordLengthOK = false := by
  obtain ⟨r, s', back, h1, _, h3, _, h5, h6⟩ :=
    openFileStreams_result { m_settings := ⟨"", 1, false, false⟩ }
      { dataOpen := true, dataFileSize := 4000, dataSha512 := "bb"
        metaRecord :=
          { global_sample_rate := 1000000, datatype := "ci16_le", sha512 := ""
            captures := [{ frequency := 100000000, sample_start := 0, length := 500 }] } }
      rfl (by decide)
  obtain ⟨hr, ha, hc⟩ := h3 rfl
  have heval : openFileStreams { m_settings := ⟨"", 1, false, false⟩ }
        { dataOpen := true, dataFileSize := 4000, dataSha512 := "bb"
          metaRecord :=
            { global_sample_rate := 1000000, datatype := "ci16_le", sha512 := ""
              captures := [{ frequency := 100000000, sample_start := 0, length := 500 }] } }
        = some (r, s') := h1
  have htot : (openFileStreams { m_settings := ⟨"", 1, false, false⟩ }
        { dataOpen := true, dataFileSize := 4000, dataSha512 := "bb"
          metaRecord :=
            { global_sample_rate := 1000000, datatype := "ci16_le", sha512 := ""
              captures := [{ frequency := 100000000, sample_start := 0, length := 500 }] } }
      ).map (fun p => (p.2.m_totalSamples, p.2.m_captures.getLast?.map
        (fun c => (c.m_sampleStart, c.m_length)))) = some (1000, some (0, 500)) := by
    decide
  rw [heval] at htot
  simp only [Option.map_some', Option.some.injEq, Prod.mk.injEq] at htot
  obtain ⟨ht, hbk⟩ := htot
  rw [h5] at hbk
  simp only [Option.map_some', Option.some.injEq, Prod.mk.injEq] at hbk
  refine ⟨r, s', h1, hr, ha, hc, ht, ?_⟩
  rw [h6 hr, ht, hbk.1, hbk.2]
  decide

/-- `openFileStreams` leaves the worker and the announced-value members
`m_sampleRate` and `m_centerFrequency` as they were. -/
theorem openFileStreams_frame (self s' : SigMFFileInput) (files : RecordFiles) (r : Bool)
    (h : openFileStreams self files = some (r, s')) :
    s'.m_fileInputThread = self.m_fileInputThread ∧
    s'.m_sampleRate = self.m_sampleRate ∧
    s'.m_centerFrequency = self.m_centerFrequency := by
  unfold openFileStreams at h
  split at h
  · simp only [Option.some.injEq, Prod.mk.injEq] at h
    rw [← h.2]
    simp
  · simp only at h
    split at h
    · exact absurd h (by simp)
    · rename_i s1 hmeta
      obtain ⟨_, _, hf3, hf4, hf5, _, _⟩ := extractMeta_frame _ _ _ _ hmeta
      simp only at hf3 hf4 hf5
      split at h
      · exact absurd h (by simp)
      · rename_i s2 hcap
        obtain ⟨⟨caps, starts, hshape⟩, _⟩ := extractCaptures_shape s1 s2 _ hcap
        have h3 : s2.m_fileInputThread = self.m_fileInputThread := by rw [hshape]; exact hf3
        have h4 : s2.m_sampleRate = self.m_sampleRate := by rw [hshape]; exact hf4
        have h5 : s2.m_centerFrequency = self.m_centerFrequency := by rw [hshape]; exact hf5
        split at h
        · exact absurd h (by simp)
        · split at h
          · exact absurd h (by simp)
          · split at h
            · split at h <;>
              · simp only [Option.some.injEq, Prod.mk.injEq] at h
                rw [← h.2]
                exact ⟨h3, h4, h5⟩
            · simp only [Option.some.injEq, Prod.mk.injEq] at h
              rw [← h.2]
              exact ⟨h3, h4, h5⟩

/-! ## Settings: the acceleration factor -/

/-- Counterexample to C19 as stated: the factors -1 and 0 given to
`applySettings` on a controller with the factor 1 and a worker: the call
returns `true`, the factor is stored in the settings and given to the worker. -/
theorem applySettings_nonpositive_factor :
    (applySettings
        { m_settings := ⟨"", 1, false, false⟩, m_fileInputThread := some {} }
        ⟨"", -1, false, false⟩ false
        (fun _ => { dataOpen := false, dataFileSize := 0, metaRecord := {}, dataSha512 := "" })
        8 true).map
      (fun p => (p.1, p.2.1.m_settings.m_accelerationFactor,
        p.2.1.m_fileInputThread.map (·.m_accelerationFactor))) = some (true, -1, some (-1)) ∧
    (applySettings
        { m_settings := ⟨"", 1, false, false⟩, m_fileInputThread := some {} }
        ⟨"", 0, false, false⟩ false
        (fun _ => { dataOpen := false, dataFileSize := 0, metaRecord := {}, dataSha512 := "" })
        8 true).map
      (fun p => (p.1, p.2.1.m_settings.m_accelerationFactor,
        p.2.1.m_fileInputThread.map (·.m_accelerationFactor))) = some (true, 0, some 0) := by
  decide

/-- C19, amended: `applySettings` does not validate the acceleration factor.
Whenever it returns, it returns `true`, the settings it was given are the
stored settings, and a worker, if any, has the new factor when the factor
changed or `force` is set and its former factor otherwise; and it does return
when the file name is unchanged. -/
theorem applySettings_accepts (self : SigMFFileInput) (settings : SigMFFileInputSettings)
    (force : Bool) (files : String → RecordFiles) (sizeofSample : Nat) (fifoSetSize : Bool) :
    (∀ r s' keys,
      applySettings self settings force files sizeofSample fifoSetSize = some (r, s', keys) →
      r = true ∧ s'.m_settings = settings ∧
      ∀ thread, self.m_fileInputThread = some thread →
        ∃ thread', s'.m_fileInputThread = some thread' ∧
          thread'.m_accelerationFactor =
            if self.m_settings.m_accelerationFactor ≠ settings.m_accelerationFactor ∨
                force = true then
              settings.m_accelerationFactor
            else thread.m_accelerationFactor) ∧
    (settings.m_fileName = self.m_settings.m_fileName →
      (applySettings self settings force files sizeofSample fifoSetSize).isSome = true) := by
  constructor
  · intro r s' keys h
    unfold applySettings at h
    simp only at h
    split at h
    · exact absurd h (by simp)
    · rename_i s2 keys2 hopened
      simp only [Option.some.injEq, Prod.mk.injEq] at h
      obtain ⟨hr, hs', _⟩ := h
      refine ⟨hr.symm, by rw [← hs'], ?_⟩
      intro thread hth
      have hs2 : s2.m_fileInputThread =
          some (if self.m_settings.m_accelerationFactor ≠ settings.m_accelerationFactor ∨
              force = true then
            thread.setAccelerationFactor settings.m_accelerationFactor else thread) := by
        split at hopened
        · split at hopened
          · exact absurd hopened (by simp)
          · rename_i b s3 hopen
            simp only [Option.some.injEq, Prod.mk.injEq] at hopened
            rw [← hopened.1, (openFileStreams_frame _ _ _ _ hopen).1]
            by_cases hc : self.m_settings.m_accelerationFactor ≠ settings.m_accelerationFactor ∨
                force = true
            · simp only [hc, if_true, hth]
            · simp only [hc, if_false, hth]
        · simp only [Option.some.injEq, Prod.mk.injEq] at hopened
          rw [← hopened.1]
          by_cases hc : self.m_settings.m_accelerationFactor ≠ settings.m_accelerationFactor ∨
              force = true
          · simp only [hc, if_true, hth]
          · simp only [hc, if_false, hth]
      refine ⟨_, by rw [← hs']; exact hs2, ?_⟩
      by_cases hc : self.m_settings.m_accelerationFactor ≠ settings.m_accelerationFactor ∨
          force = true
      · simp only [hc, if_true, SigMFFileInputThread.setAccelerationFactor]
      · simp only [hc, if_false]
  · intro hname
    unfold applySettings
    simp [hname]

/-- Witness of C19, amended: the factor -1 with an unchanged file name. -/
theorem applySettings_accepts_witness :
    ∃ s' keys thread',
      applySettings
          { m_settings := ⟨"", 1, false, false⟩, m_fileInputThread := some {} }
          ⟨"", -1, false, false⟩ false
          (fun _ => { dataOpen := false, dataFileSize := 0, metaRecord := {}, dataSha512 := "" })
          8 true = some (true, s', keys) ∧
      s'.m_settings = ⟨"", -1, false, false⟩ ∧
      s'.m_fileInputThread = some thread' ∧ thread'.m_accelerationFactor = -1 := by
  obtain ⟨hret, hsome⟩ :=
    applySettings_accepts
      { m_settings := ⟨"", 1, false, false⟩, m_fileInputThread := some {} }
      ⟨"", -1, false, false⟩ false
      (fun _ => { dataOpen := false, dataFileSize := 0, metaRecord := {}, dataSha512 := "" })
      8 true
  cases hres : applySettings
      { m_settings := ⟨"", 1, false, false⟩, m_fileInputThread := some {} }
      ⟨"", -1, false, false⟩ false
      (fun _ => { dataOpen := false, dataFileSize := 0, metaRecord := {}, dataSha512 := "" })
      8 true with
  | none =>
    have h := hsome rfl
    rw [hres] at h
    exact absurd h (by simp)
  | some p =>
    obtain ⟨r, s', keys⟩ := p
    obtain ⟨hr, hset, hth⟩ := hret r s' keys hres
    obtain ⟨thread', ht1, ht2⟩ := hth {} rfl
    subst hr
    exact ⟨s', keys, thread', rfl, hset, ht1, by rw [ht2]; decide⟩

/-! ## Seek targets out of range -/

/-- Counterexample to C20 as stated, on a stream of 5000 samples whose second
track starts at sample 1000 with 4000 samples: the file seek with value 2000
gives the worker the sample count 10000, the file seek with value -1 gives it
18446744073709546, the track seek with value 2000 gives the cursor and the
worker the sample 9000, all beyond the 5000 samples. -/
theorem seek_targets_not_clamped :
    (handleMessage
        { m_settings := ⟨"", 1, false, false⟩, m_dataStreamOpen := true, m_sampleBytes := 2,
          m_totalSamples := 5000, m_currentTrackIndex := 1, m_captureStarts := [0, 1000],
          m_captures := [{ m_sampleStart := 0, m_length := 1000, m_sampleRate := 1000 },
            { m_sampleStart := 1000, m_length := 4000, m_sampleRate := 1000 }],
          m_fileInputThread := some { m_running := true } }
        (.MsgConfigureFileSeek 2000)).map
      (fun s => s.m_fileInputThread.map (·.m_samplesCount)) = some (some 10000) ∧
    (handleMessage
        { m_settings := ⟨"", 1, false, false⟩, m_dataStreamOpen := true, m_sampleBytes := 2,
          m_totalSamples := 5000, m_currentTrackIndex := 1, m_captureStarts := [0, 1000],
          m_captures := [{ m_sampleStart := 0, m_length := 1000, m_sampleRate := 1000 },
            { m_sampleStart := 1000, m_length := 4000, m_sampleRate := 1000 }],
          m_fileInputThread := some { m_running := true } }
        (.MsgConfigureFileSeek (-1))).map
      (fun s => s.m_fileInputThread.map (·.m_samplesCount)) = some (some 18446744073709546) ∧
    (handleMessage
        { m_settings := ⟨"", 1, false, false⟩, m_dataStreamOpen := true, m_sampleBytes := 2,
          m_totalSamples := 5000, m_currentTrackIndex := 1, m_captureStarts := [0, 1000],
          m_captures := [{ m_sampleStart := 0, m_length := 1000, m_sampleRate := 1000 },
            { m_sampleStart := 1000, m_length := 4000, m_sampleRate := 1000 }],
          m_fileInputThread := some { m_running := true } }
        (.MsgConfigureTrackSeek 2000)).map
      (fun s => (s.m_dataStreamPos, s.m_fileInputThread.map (·.m_samplesCount)))
      = some (9000 * 2 * 2, some 9000) ∧
    ¬ ((10000 : Nat) ≤ 5000) ∧ ¬ ((18446744073709546 : Nat) ≤ 5000) ∧
    ¬ ((9000 : Nat) ≤ 5000) := by
  decide

/-- A seek keeps the worker, the captures, the current track, the list of
starts and the total. -/
theorem seekFileStream_fields (self : SigMFFileInput) (n : Nat) :
    (seekFileStream self n).m_fileInputThread = self.m_fileInputThread ∧
    (seekFileStream self n).m_captures = self.m_captures ∧
    (seekFileStream self n).m_currentTrackIndex = self.m_currentTrackIndex ∧
    (seekFileStream self n).m_captureStarts = self.m_captureStarts ∧
    (seekFileStream self n).m_totalSamples = self.m_totalSamples := by
  obtain ⟨pos, hp⟩ := seekFileStream_frame self n
  rw [hp]
  exact ⟨rfl, rfl, rfl, rfl, rfl⟩

/-- The cursor and the sample count of the worker after the track seek: the
cursor is where `seekFileStream` puts it for the offset of the seek, and the
worker has that offset. -/
theorem handleMessage_trackSeek_offsets (self : SigMFFileInput) (thread : SigMFFileInputThread)
    (cap : SigMFFileCapture) (m : Int)
    (hth : self.m_fileInputThread = some thread)
    (hcap : capturesAt self.m_captures self.m_currentTrackIndex = some cap) :
    (handleMessage self (.MsgConfigureTrackSeek m)).map
        (fun s => (s.m_dataStreamPos, s.m_fileInputThread.map (·.m_samplesCount))) =
      some ((seekFileStream self
              (addU64 cap.m_sampleStart (mulU64 cap.m_length (toU64 m) / 1000))).m_dataStreamPos,
            some (addU64 cap.m_sampleStart (mulU64 cap.m_length (toU64 m) / 1000))) := by
  obtain ⟨h2, h3, h4, _, _⟩ := seekFileStream_fields self
    (addU64 cap.m_sampleStart (mulU64 cap.m_length (toU64 m) / 1000))
  simp only [handleMessage, seekTrackMillis, hcap, h2, h3, h4, hth]
  cases hr : thread.isRunning <;>
    simp [SigMFFileInputThread.setSamplesCount, SigMFFileInputThread.startWork,
      SigMFFileInputThread.stopWork]

/-- The sample count of the worker after the file seek. -/
theorem handleMessage_fileSeek_count (self : SigMFFileInput) (thread : SigMFFileInputThread)
    (m : Int) (hth : self.m_fileInputThread = some thread) :
    (handleMessage self (.MsgConfigureFileSeek m)).map
        (fun s => s.m_fileInputThread.map (·.m_samplesCount)) =
      some (some (mulU64 self.m_totalSamples (toU64 m) / 1000)) := by
  obtain ⟨h2, _, _, h5, h6⟩ := seekFileStream_fields self (toU64 m)
  simp only [handleMessage, h2, h5, h6, hth]
  cases hr : thread.isRunning <;>
    simp [SigMFFileInputThread.setSamplesCount, SigMFFileInputThread.startWork,
      SigMFFileInputThread.stopWork, SigMFFileInputThread.setTrackIndex]

/-- C20, amended: nothing is clamped, and the targets stay in range only for
commands in range. With a worker, an open stream, a total that leaves room for
the multiplication by 1000 and a byte size `totalSamples * m_sampleBytes * 2`
below `2^63`: for a value `m ≤ 1000` and a current track in range that ends
within the file, the track seek gives the cursor and the worker the offset
`sampleStart + length * m / 1000`, between the start of the track and the
total; for `m ≤ 1000` the file seek gives the worker the sample count
`totalSamples * m / 1000`, at most the total. -/
theorem seek_targets_in_range (self : SigMFFileInput) (thread : SigMFFileInputThread)
    (hth : self.m_fileInputThread = some thread) (hopen : self.m_dataStreamOpen = true)
    (htot : self.m_totalSamples * 1000 < U64)
    (hsize : self.m_totalSamples * self.m_sampleBytes * 2 < 9223372036854775808) :
    (∀ (m : Nat) (cap : SigMFFileCapture), m ≤ 1000 →
      capturesAt self.m_captures self.m_currentTrackIndex = some cap →
      cap.m_sampleStart + cap.m_length ≤ self.m_totalSamples →
      ∃ s' thread' off,
        handleMessage self (.MsgConfigureTrackSeek (m : Int)) = some s' ∧
        off = cap.m_sampleStart + cap.m_length * m / 1000 ∧
        s'.m_dataStreamPos = off * self.m_sampleBytes * 2 ∧
        s'.m_fileInputThread = some thread' ∧ thread'.m_samplesCount = off ∧
        cap.m_sampleStart ≤ off ∧ off ≤ self.m_totalSamples) ∧
    (∀ m : Nat, m ≤ 1000 →
      ∃ s' thread' count,
        handleMessage self (.MsgConfigureFileSeek (m : Int)) = some s' ∧
        count = self.m_totalSamples * m / 1000 ∧
        s'.m_fileInputThread = some thread' ∧ thread'.m_samplesCount = count ∧
        count ≤ self.m_totalSamples) := by
  have htotal : self.m_totalSamples < U64 := by
    have : self.m_totalSamples ≤ self.m_totalSamples * 1000 := Nat.le_mul_of_pos_right _ (by decide)
    omega
  refine ⟨?_, ?_⟩
  · intro m cap hm hcap hend
    have hq : cap.m_length * m / 1000 ≤ cap.m_length := by
      apply Nat.div_le_of_le_mul
      calc cap.m_length * m ≤ cap.m_length * 1000 := Nat.mul_le_mul_left _ hm
        _ = 1000 * cap.m_length := Nat.mul_comm _ _
    have hprod : cap.m_length * m < U64 := by
      have h1 : cap.m_length * m ≤ self.m_totalSamples * 1000 :=
        Nat.mul_le_mul (by omega) hm
      omega
    have hoff := trackOffset_exact cap.m_sampleStart cap.m_length m hprod (by omega)
    have hle : cap.m_sampleStart + cap.m_length * m / 1000 ≤ self.m_totalSamples := by omega
    have hbyte : (cap.m_sampleStart + cap.m_length * m / 1000) * self.m_sampleBytes * 2 <
        9223372036854775808 :=
      lt_of_le_of_lt (Nat.mul_le_mul_right 2 (Nat.mul_le_mul_right _ hle)) hsize
    have hpos := seekFileStream_of_lt self _ hopen hbyte
    obtain ⟨s', hs', hf⟩ := Option.map_eq_some'.mp
      (handleMessage_trackSeek_offsets self thread cap (m : Int) hth hcap)
    simp only [Prod.mk.injEq, hoff, hpos] at hf
    obtain ⟨hp, hcount⟩ := hf
    obtain ⟨thread', ht', hc'⟩ := Option.map_eq_some'.mp hcount
    exact ⟨s', thread', _, hs', rfl, hp, ht', hc', by omega, hle⟩
  · intro m hm
    have hq : self.m_totalSamples * m / 1000 ≤ self.m_totalSamples := by
      apply Nat.div_le_of_le_mul
      calc self.m_totalSamples * m ≤ self.m_totalSamples * 1000 := Nat.mul_le_mul_left _ hm
        _ = 1000 * self.m_totalSamples := Nat.mul_comm _ _
    have hprod : self.m_totalSamples * m < U64 := by
      have h1 : self.m_totalSamples * m ≤ self.m_totalSamples * 1000 :=
        Nat.mul_le_mul_left _ hm
      omega
    have hmU : toU64 (m : Int) = m := toU64_natCast m (by
      have : m ≤ 1000 := hm
      simp only [U64]
      omega)
    have hcnt : mulU64 self.m_totalSamples (toU64 (m : Int)) / 1000 =
        self.m_totalSamples * m / 1000 := by
      rw [hmU]
      unfold mulU64
      rw [Nat.mod_eq_of_lt hprod]
    obtain ⟨s', hs', hf⟩ := Option.map_eq_some'.mp
      (handleMessage_fileSeek_count self thread (m : Int) hth)
    rw [hcnt] at hf
    obtain ⟨thread', ht', hc'⟩ := Option.map_eq_some'.mp hf
    exact ⟨s', thread', _, hs', rfl, ht', hc', hq⟩

/-- Witness of C20, amended: on a stream of 5000 samples whose second track
starts at sample 1000 with 4000 samples, the track seek with value 500 gives
the cursor and the worker the sample 3000. -/
theorem seek_targets_in_range_witness :
    ∃ s' thread' off,
      handleMessage
          { m_settings := ⟨"", 1, false, false⟩, m_dataStreamOpen := true, m_sampleBytes := 2,
            m_totalSamples := 5000, m_currentTrackIndex := 1, m_captureStarts := [0, 1000],
            m_captures := [{ m_sampleStart := 0, m_length := 1000, m_sampleRate := 1000 },
              { m_sampleStart := 1000, m_length := 4000, m_sampleRate := 1000 }],
            m_fileInputThread := some { m_running := true } }
          (.MsgConfigureTrackSeek ((500 : Nat) : Int)) = some s' ∧
      off = 1000 + 4000 * 500 / 1000 ∧
      s'.m_dataStreamPos = off * 2 * 2 ∧
      s'.m_fileInputThread = some thread' ∧ thread'.m_samplesCount = off ∧
      1000 ≤ off ∧ off ≤ 5000 :=
  (seek_targets_in_range
    { m_settings := ⟨"", 1, false, false⟩, m_dataStreamOpen := true, m_sampleBytes := 2,
      m_totalSamples := 5000, m_currentTrackIndex := 1, m_captureStarts := [0, 1000],
      m_captures := [{ m_sampleStart := 0, m_length := 1000, m_sampleRate := 1000 },
        { m_sampleStart := 1000, m_length := 4000, m_sampleRate := 1000 }],
      m_fileInputThread := some { m_running := true } }
    { m_running := true } rfl rfl (by decide) (by decide)).1 500
    { m_sampleStart := 1000, m_length := 4000, m_sampleRate := 1000 }
    (by decide) (by decide) (by decide)

/-! ## Timeline construction: the loop on any list of descriptors -/

/-- The resolution step right after a capture `c` was pushed behind the
captures `done`, with `i` their number: `c` stays the last capture, and the
captures before it keep their number, sample rates, starts and cumulative
times (only a length may change). -/
theorem resolvePrevious_pushed (done : List SigMFFileCapture) (c : SigMFFileCapture)
    (last : Nat) :
    ∃ caps0 last1, resolvePrevious (done ++ [c]) done.length last = some (caps0 ++ [c], last1) ∧
      caps0.length = done.length ∧
      caps0.map (·.m_sampleRate) = done.map (·.m_sampleRate) ∧
      caps0.map (·.m_sampleStart) = done.map (·.m_sampleStart) ∧
      caps0.map (·.m_cumulativeTime) = done.map (·.m_cumulativeTime) := by
  rcases List.eq_nil_or_concat done with hnil | ⟨done', p, hdone⟩
  · subst hnil
    exact ⟨[], last, by simp [resolvePrevious], rfl, rfl, rfl, rfl⟩
  · rw [List.concat_eq_append] at hdone
    subst hdone
    by_cases hp : p.m_length = 0
    · refine ⟨done' ++ [{ p with m_length := subU64 c.m_sampleStart last }], c.m_sampleStart,
        ?_, by simp, by simp, by simp, by simp⟩
      have := resolvePrevious_unknown done' p c last hp
      simpa using this
    · refine ⟨done' ++ [p], last, ?_, rfl, rfl, rfl, rfl⟩
      have h1 : (done' ++ [p] ++ [c])[(done' ++ [p]).length - 1]? = some p := by
        rw [List.append_assoc, List.length_append, List.length_singleton, Nat.add_sub_cancel,
          List.getElem?_append_right (le_refl _)]
        simp
      have hne : (done' ++ [p]).length ≠ 0 := by simp
      unfold resolvePrevious
      rw [if_pos hne]
      simp only [h1, if_neg hp]

/-- One iteration of the loop of `extractCaptures`, started with `i` equal to
the number of captures, for a descriptor whose stored sample rate is not zero:
it succeeds and appends the pushed capture. -/
theorem extractCapturesBody_step (g : ℚ) (s : ExtractLoop) (it : CaptureDescr)
    (hi : s.i = s.m_captures.length) (hrate : captureSampleRate g it ≠ 0) :
    ∃ s' caps0, extractCapturesBody g s it = some s' ∧
      s'.m_captures = caps0 ++ [pushedCapture g s.cumulativeTime it] ∧
      caps0.length = s.m_captures.length ∧
      caps0.map (·.m_sampleRate) = s.m_captures.map (·.m_sampleRate) ∧
      caps0.map (·.m_sampleStart) = s.m_captures.map (·.m_sampleStart) ∧
      caps0.map (·.m_cumulativeTime) = s.m_captures.map (·.m_cumulativeTime) ∧
      s'.i = s'.m_captures.length ∧
      s'.cumulativeTime =
        addU64 s.cumulativeTime (mulU64 it.length 1000 / captureSampleRate g it) := by
  obtain ⟨caps0, last1, hres, hlen, h1, h2, h3⟩ :=
    resolvePrevious_pushed s.m_captures (pushedCapture g s.cumulativeTime it) s.lastSampleStart
  have hr : (pushedCapture g s.cumulativeTime it).m_sampleRate ≠ 0 := hrate
  refine ⟨⟨caps0 ++ [pushedCapture g s.cumulativeTime it],
      s.m_captureStarts ++ [it.sample_start], last1, s.i + 1,
      addU64 s.cumulativeTime (mulU64 it.length 1000 / captureSampleRate g it)⟩,
    caps0, ?_, rfl, hlen, h1, h2, h3, ?_, rfl⟩
  · unfold extractCapturesBody
    simp only [hi, hres, List.getLast?_concat, hr, if_false]
    rfl
  · simp [hlen, hi]


/-- The loop of `extractCaptures`, started with `i` equal to the number of
captures, over descriptors whose stored sample rates are not zero: it
succeeds; it appends one capture per descriptor with the sample rate of
`captureSampleRate`; its last capture has the declared length and the start of
the last descriptor; and as long as the accumulated time
`(length * 1000) / sampleRate` (on the declared lengths, in `uint64_t`) stays
below `2^64`, the cumulative times stay ascending and at most the running
`cumulativeTime`. -/
theorem extractCapturesLoop_step (g : ℚ) :
    ∀ (rs : List CaptureDescr) (s : ExtractLoop), s.i = s.m_captures.length →
      (∀ c ∈ rs, captureSampleRate g c ≠ 0) →
      ∃ s', List.foldlM (extractCapturesBody g) s rs = some s' ∧
        s'.i = s'.m_captures.length ∧
        s'.m_captures.map (·.m_sampleRate) =
          s.m_captures.map (·.m_sampleRate) ++ rs.map (captureSampleRate g) ∧
        (∀ d, rs.getLast? = some d →
          ∃ b, s'.m_captures.getLast? = some b ∧ b.m_length = d.length ∧
            b.m_sampleStart = d.sample_start) ∧
        (s.cumulativeTime +
            (rs.map (fun d => mulU64 d.length 1000 / captureSampleRate g d)).sum < U64 →
          (s.m_captures.map (·.m_cumulativeTime)).Pairwise (· ≤ ·) →
          (∀ t ∈ s.m_captures.map (·.m_cumulativeTime), t ≤ s.cumulativeTime) →
          (s'.m_captures.map (·.m_cumulativeTime)).Pairwise (· ≤ ·) ∧
          (∀ t ∈ s'.m_captures.map (·.m_cumulativeTime), t ≤ s'.cumulativeTime)) := by
  intro rs
  induction rs with
  | nil =>
    intro s hi _
    exact ⟨s, rfl, hi, by simp, by simp, fun _ h1 h2 => ⟨h1, h2⟩⟩
  | cons r rs ih =>
    intro s hi hrate
    obtain ⟨s1, caps0, hs1, hc1, _, hr1, _, ht1, hi1, hcum1⟩ :=
      extractCapturesBody_step g s r hi (hrate r (List.mem_cons_self _ _))
    obtain ⟨s', hfold, hi', hrates, hlast, hmono⟩ :=
      ih s1 hi1 (fun c hc => hrate c (List.mem_cons_of_mem _ hc))
    refine ⟨s', ?_, hi', ?_, ?_, ?_⟩
    · simp [List.foldlM_cons, hs1, hfold]
    · rw [hrates, hc1]
      simp [hr1, pushedCapture]
    · intro d hd
      cases rs with
      | nil =>
        simp only [List.getLast?_singleton, Option.some.injEq] at hd
        subst hd
        simp only [List.foldlM_nil] at hfold
        cases hfold
        exact ⟨pushedCapture g s.cumulativeTime r, by rw [hc1]; simp, rfl, rfl⟩
      | cons r2 rs2 =>
        rw [List.getLast?_cons_cons] at hd
        exact hlast d hd
    · intro hsum hpw hle
      simp only [List.map_cons, List.sum_cons] at hsum
      have hadd : s1.cumulativeTime =
          s.cumulativeTime + mulU64 r.length 1000 / captureSampleRate g r := by
        rw [hcum1]
        unfold addU64
        exact Nat.mod_eq_of_lt (by omega)
      apply hmono
      · rw [hadd]; omega
      · rw [hc1, List.map_append, ht1]
        refine List.pairwise_append.mpr ⟨hpw, by simp, ?_⟩
        intro a ha b hb
        simp only [List.map_cons, List.map_nil, List.mem_singleton] at hb
        subst hb
        exact hle a ha
      · intro t ht
        rw [hc1, List.map_append, ht1] at ht
        rcases List.mem_append.mp ht with h | h
        · rw [hadd]
          exact le_trans (hle t h) (Nat.le_add_right _ _)
        · simp only [List.map_cons, List.map_nil, List.mem_singleton] at h
          subst h
          rw [hadd]
          exact Nat.le_add_right _ _

/-- The loop of `extractCaptures` over descriptors of which `z` is the last:
the cumulative times stay ascending as long as the time accumulated over the
descriptors before `z` stays below `2^64`; the duration of `z` itself is added
to the running `cumulativeTime` but stored in no capture. -/
theorem extractCapturesLoop_times (g : ℚ) (ys : List CaptureDescr) (z : CaptureDescr)
    (s0 s' : ExtractLoop) (hi : s0.i = s0.m_captures.length)
    (hrate : ∀ c ∈ ys ++ [z], captureSampleRate g c ≠ 0)
    (hsum : s0.cumulativeTime +
      (ys.map (fun d => mulU64 d.length 1000 / captureSampleRate g d)).sum < U64)
    (hpw : (s0.m_captures.map (·.m_cumulativeTime)).Pairwise (· ≤ ·))
    (hle : ∀ t ∈ s0.m_captures.map (·.m_cumulativeTime), t ≤ s0.cumulativeTime)
    (hfold : List.foldlM (extractCapturesBody g) s0 (ys ++ [z]) = some s') :
    (s'.m_captures.map (·.m_cumulativeTime)).Pairwise (· ≤ ·) := by
  obtain ⟨s1, hf1, hi1, _, _, hmono⟩ :=
    extractCapturesLoop_step g ys s0 hi (fun c hc => hrate c (List.mem_append_left _ hc))
  obtain ⟨hpw1, hle1⟩ := hmono hsum hpw hle
  obtain ⟨s2, caps0, hb, hc2, _, _, _, ht2, _, _⟩ :=
    extractCapturesBody_step g s1 z hi1 (hrate z (by simp))
  rw [List.foldlM_append, hf1] at hfold
  simp only [Option.bind_eq_bind, Option.some_bind, List.foldlM_cons, List.foldlM_nil, hb,
    Option.pure_def, Option.some.injEq] at hfold
  subst hfold
  rw [hc2, List.map_append, ht2]
  refine List.pairwise_append.mpr ⟨hpw1, by simp, ?_⟩
  intro a ha b hb'
  simp only [List.map_cons, List.map_nil, List.mem_singleton] at hb'
  subst hb'
  exact hle1 a ha

/-- Giving the last capture of a list another length changes no other field
of the captures of the list. -/
theorem map_set_last_length {β : Type} (f : SigMFFileCapture → β)
    (l : List SigMFFileCapture) (back : SigMFFileCapture) (n : Nat)
    (hback : l.getLast? = some back)
    (hf : ∀ (c : SigMFFileCapture) (m : Nat), f { c with m_length := m } = f c) :
    (l.set (l.length - 1) { back with m_length := n }).map f = l.map f := by
  obtain ⟨ys, rfl⟩ := List.getLast?_eq_some_iff.mp hback
  rw [List.length_append, List.length_singleton, Nat.add_sub_cancel,
    List.set_append_right _ _ (le_refl _)]
  simp [hf]

/-- What `extractCaptures` builds from a non-empty list of descriptors whose
stored sample rates are not zero: it succeeds; the captures have the sample
rates of `captureSampleRate`; the last capture has the start of the last
descriptor and its declared length or, for a declared length 0, the distance
from its start to the total number of samples; and the cumulative times are
ascending when the time accumulated over the captures before the last stays
below `2^64`. -/
theorem extractCaptures_of_rates (self : SigMFFileInput) (metaRecord : MetaRecord)
    (hne : metaRecord.captures ≠ [])
    (hrate : ∀ c ∈ metaRecord.captures,
      captureSampleRate metaRecord.global_sample_rate c ≠ 0) :
    ∃ self', extractCaptures self metaRecord = some self' ∧
      self'.m_captures.map (·.m_sampleRate) =
        metaRecord.captures.map (captureSampleRate metaRecord.global_sample_rate) ∧
      (∀ d, metaRecord.captures.getLast? = some d →
        ∃ b, self'.m_captures.getLast? = some b ∧ b.m_sampleStart = d.sample_start ∧
          b.m_length =
            if d.length = 0 then subU64 self.m_totalSamples d.sample_start else d.length) ∧
      ((metaRecord.captures.dropLast.map (fun d =>
          mulU64 d.length 1000 / captureSampleRate metaRecord.global_sample_rate d)).sum < U64 →
        (self'.m_captures.map (·.m_cumulativeTime)).Pairwise (· ≤ ·)) := by
  obtain ⟨s, hfold, _, hrates, hlast, _⟩ :=
    extractCapturesLoop_step metaRecord.global_sample_rate metaRecord.captures
      { m_captures := [], m_captureStarts := self.m_captureStarts, lastSampleStart := 0,
        i := 0, cumulativeTime := 0 } rfl hrate
  simp only [List.map_nil, List.nil_append] at hrates
  obtain ⟨z, hz⟩ : ∃ z, metaRecord.captures.getLast? = some z := by
    cases h : metaRecord.captures.getLast? with
    | none => exact absurd (List.getLast?_eq_none_iff.mp h) hne
    | some z => exact ⟨z, rfl⟩
  have hmono : (metaRecord.captures.dropLast.map (fun d =>
        mulU64 d.length 1000 / captureSampleRate metaRecord.global_sample_rate d)).sum < U64 →
      (s.m_captures.map (·.m_cumulativeTime)).Pairwise (· ≤ ·) := by
    intro hsum
    obtain ⟨ys, hys⟩ := List.getLast?_eq_some_iff.mp hz
    rw [hys] at hfold hsum hrate
    rw [List.dropLast_concat] at hsum
    exact extractCapturesLoop_times metaRecord.global_sample_rate ys z
      { m_captures := [], m_captureStarts := self.m_captureStarts, lastSampleStart := 0,
        i := 0, cumulativeTime := 0 } s rfl hrate
      (by simpa using hsum) List.Pairwise.nil (by simp) hfold
  obtain ⟨b, hb, hbl, hbs⟩ := hlast z hz
  have hsne : s.m_captures ≠ [] := by
    intro hnil
    rw [hnil] at hb
    exact absurd hb (by simp)
  by_cases hzl : z.length = 0
  · have hb0 : b.m_length = 0 := by rw [hbl, hzl]
    refine ⟨{ self with
        m_captures := s.m_captures.set (s.m_captures.length - 1)
          { b with m_length := subU64 self.m_totalSamples b.m_sampleStart }
        m_captureStarts := s.m_captureStarts }, ?_, ?_, ?_, ?_⟩
    · unfold extractCaptures
      simp only [hfold, hb, hb0, if_true]
    · simp only
      rw [map_set_last_length (·.m_sampleRate) _ b _ hb (fun _ _ => rfl), hrates]
    · intro d hd
      rw [hz] at hd
      cases hd
      refine ⟨_, getLast?_set_last _ _ hsne, hbs, ?_⟩
      simp [hzl, hbs]
    · intro hsum
      simp only
      rw [map_set_last_length (·.m_cumulativeTime) _ b _ hb (fun _ _ => rfl)]
      exact hmono hsum
  · have hb0 : b.m_length ≠ 0 := by rw [hbl]; exact hzl
    refine ⟨{ self with m_captures := s.m_captures, m_captureStarts := s.m_captureStarts },
      ?_, hrates, ?_, ?_⟩
    · unfold extractCaptures
      simp only [hfold, hb, hb0, if_false]
    · intro d hd
      rw [hz] at hd
      cases hd
      exact ⟨b, hb, hbs, by simp [hzl, hbl]⟩
    · intro hsum
      exact hmono hsum

/-! ## Metadata: the sign of the global sample rate -/

/-- Whenever `extractMeta` returns, the state holds the absolute value of the
global sample rate, the flag `m_swapIQ` tells whether the rate was negative,
the byte stride is that of the width decoded from the datatype string and the
total number of samples is the file size divided by twice the stride. -/
theorem extractMeta_some (self : SigMFFileInput) (metaRecord : MetaRecord) (dataFileSize : Nat)
    (hstride :
      bitsToBytes (analyzeDataType metaRecord.datatype self.m_dataType).m_sampleBits ≠ 0) :
    ∃ s1, extractMeta self metaRecord dataFileSize = some s1 ∧
      s1.m_coreSampleRate = |metaRecord.global_sample_rate| ∧
      s1.m_dataType.m_swapIQ = decide (metaRecord.global_sample_rate < 0) ∧
      s1.m_sampleBytes =
        bitsToBytes (analyzeDataType metaRecord.datatype self.m_dataType).m_sampleBits ∧
      s1.m_totalSamples = dataFileSize / (2 * s1.m_sampleBytes) ∧
      s1.m_dataType.m_sampleBits =
        (if metaRecord.sdrangel_version ≠ "" ∧
            (analyzeDataType metaRecord.datatype self.m_dataType).m_sampleBits = 32 then 24
          else (analyzeDataType metaRecord.datatype self.m_dataType).m_sampleBits) ∧
      s1.m_dataStreamOpen = self.m_dataStreamOpen := by
  have h2 : ¬ bitsToBytes (analyzeDataType metaRecord.datatype self.m_dataType).m_sampleBits * 2
      = 0 := by omega
  have habs : (if metaRecord.global_sample_rate < 0 then -metaRecord.global_sample_rate
      else metaRecord.global_sample_rate) = |metaRecord.global_sample_rate| := by
    split
    · rename_i h; exact (abs_of_neg h).symm
    · rename_i h; exact (abs_of_nonneg (not_lt.mp h)).symm
  have hver : (metaRecord.sdrangel_version.length > 0) ↔ metaRecord.sdrangel_version ≠ "" := by
    rw [Ne, ← string_length_eq_zero]
    omega
  unfold extractMeta
  simp only [h2, if_false]
  refine ⟨_, rfl, habs, rfl, rfl, ?_, ?_, rfl⟩
  · simp only [Nat.mul_comm]
  · simp only [hver]
    split <;> rfl


/-- A global sample rate of `2^32 + 5`, which does not convert to the
`unsigned int` of a capture, makes `extractCaptures` undefined on a capture
without a rate of its own. -/
theorem extractCaptures_rate_beyond_unsigned :
    extractCaptures { m_settings := ⟨"", 1, false, false⟩, m_totalSamples := 1000 }
      { global_sample_rate := 4294967301, captures := [{ sample_start := 0, length := 0 }] }
      = none := by
  decide

/-- Counterexample to C21 as stated: the global sample rate -2.5 with one
capture that has no rate of its own. `extractMeta` stores the core sample rate
2.5 and sets `m_swapIQ`, but the capture, whose rate is an `unsigned int`, gets
the sample rate 2, which is not 2.5. -/
theorem extractCaptures_fractional_rate :
    ((extractMeta { m_settings := ⟨"", 1, false, false⟩ }
        { global_sample_rate := mkRat (-5) 2, datatype := "ci16_le",
          captures := [{ sample_start := 0, length := 0 }] } 4000).bind
      (fun s1 => extractCaptures s1
        { global_sample_rate := mkRat (-5) 2, datatype := "ci16_le",
          captures := [{ sample_start := 0, length := 0 }] })).map
      (fun s2 => (s2.m_coreSampleRate, s2.m_dataType.m_swapIQ,
        s2.m_captures.map (·.m_sampleRate))) = some (mkRat 5 2, true, [2]) ∧
    |mkRat (-5) 2| = mkRat 5 2 ∧
    ((2 : Nat) : ℚ) ≠ mkRat 5 2 := by
  decide

/-- C21, amended: for every global sample rate `r` of a record that loads
(non-zero byte stride, at least one capture, no capture whose rate converts to
zero or does not convert to `unsigned int`), `extractMeta` stores `|r|` as the
core sample rate and sets `m_swapIQ` to `r < 0`, and `extractCaptures` gives
every capture without a rate of its own the sample rate `|r|` with its
fractional part discarded, a value below `2^32`. -/
theorem extractMeta_sampleRate_sign (self : SigMFFileInput) (metaRecord : MetaRecord)
    (dataFileSize : Nat)
    (hstride :
      bitsToBytes (analyzeDataType metaRecord.datatype self.m_dataType).m_sampleBits ≠ 0)
    (hne : metaRecord.captures ≠ [])
    (hrate : ∀ c ∈ metaRecord.captures,
      captureSampleRate metaRecord.global_sample_rate c ≠ 0) :
    ∃ s1 s2, extractMeta self metaRecord dataFileSize = some s1 ∧
      extractCaptures s1 metaRecord = some s2 ∧
      s1.m_coreSampleRate = |metaRecord.global_sample_rate| ∧
      s1.m_dataType.m_swapIQ = decide (metaRecord.global_sample_rate < 0) ∧
      s2.m_captures.length = metaRecord.captures.length ∧
      ∀ (k : Nat) (d : CaptureDescr), metaRecord.captures[k]? = some d → d.sample_rate = 0 →
        ∃ c, s2.m_captures[k]? = some c ∧
          (c.m_sampleRate : Int) = ⌊|metaRecord.global_sample_rate|⌋ ∧
          c.m_sampleRate < U32 := by
  obtain ⟨s1, hs1, hcore, hswap, _⟩ := extractMeta_some self metaRecord dataFileSize hstride
  obtain ⟨s2, hs2, hrates, _⟩ := extractCaptures_of_rates s1 metaRecord hne hrate
  refine ⟨s1, s2, hs1, hs2, hcore, hswap, ?_, ?_⟩
  · have := congrArg List.length hrates
    simpa using this
  · intro k d hd hzero
    have hk : (s2.m_captures.map (·.m_sampleRate))[k]? =
        (metaRecord.captures.map (captureSampleRate metaRecord.global_sample_rate))[k]? := by
      rw [hrates]
    rw [List.getElem?_map, List.getElem?_map, hd] at hk
    cases hc : s2.m_captures[k]? with
    | none => rw [hc] at hk; exact absurd hk (by simp)
    | some c =>
      rw [hc] at hk
      simp only [Option.map_some', Option.some.injEq] at hk
      have hnz := hrate d (List.mem_iff_getElem?.mpr ⟨k, hd⟩)
      have habs : (if metaRecord.global_sample_rate < 0 then -metaRecord.global_sample_rate
          else metaRecord.global_sample_rate) = |metaRecord.global_sample_rate| := by
        split
        · rename_i h; exact (abs_of_neg h).symm
        · rename_i h; exact (abs_of_nonneg (not_lt.mp h)).symm
      have hval : captureSampleRate metaRecord.global_sample_rate d =
          doubleToU32 |metaRecord.global_sample_rate| := by
        unfold captureSampleRate
        rw [if_pos hzero, habs]
      rw [hval] at hnz hk
      unfold doubleToU32 at hnz hk
      by_cases hfit : ⌊|metaRecord.global_sample_rate|⌋.toNat < U32
      · rw [if_pos hfit] at hk
        refine ⟨c, rfl, ?_, ?_⟩
        · rw [hk]
          exact Int.toNat_of_nonneg (Int.floor_nonneg.mpr (abs_nonneg _))
        · rw [hk]
          exact hfit
      · rw [if_neg hfit] at hnz
        exact absurd rfl hnz

/-- Witness of C21, amended: the global sample rate -1000000 with one capture
that has no rate of its own: the core sample rate is 1000000, `m_swapIQ` is
set, and the capture has the sample rate 1000000. -/
theorem extractMeta_sampleRate_sign_witness :
    ∃ s1 s2,
      extractMeta { m_settings := ⟨"", 1, false, false⟩ }
        { global_sample_rate := -1000000, datatype := "ci16_le",
          captures := [{ sample_start := 0, length := 0 }] } 4000 = some s1 ∧
      extractCaptures s1
        { global_sample_rate := -1000000, datatype := "ci16_le",
          captures := [{ sample_start := 0, length := 0 }] } = some s2 ∧
      s1.m_coreSampleRate = 1000000 ∧ s1.m_dataType.m_swapIQ = true ∧
      ∃ c, s2.m_captures[0]? = some c ∧ (c.m_sampleRate : Int) = 1000000 := by
  obtain ⟨s1, s2, h1, h2, h3, h4, _, h6⟩ :=
    extractMeta_sampleRate_sign { m_settings := ⟨"", 1, false, false⟩ }
      { global_sample_rate := -1000000, datatype := "ci16_le",
        captures := [{ sample_start := 0, length := 0 }] } 4000
      (by decide) (by decide) (by decide)
  obtain ⟨c, hc1, hc2, _⟩ := h6 0 { sample_start := 0, length := 0 } rfl rfl
  exact ⟨s1, s2, h1, h2, h3.trans (by decide), h4.trans (by decide), c, hc1,
    hc2.trans (by decide)⟩

/-! ## Metadata: decoding the datatype string -/

/-- The left-to-right accumulation of `lexicalCastInt` computes the decimal
value of the digits. -/
theorem foldl_digits_eq_decimalValue (digits : List Char) :
    digits.foldl (fun (acc : Nat) (d : Char) => acc * 10 + (d.toNat - 48)) 0 =
      decimalValue digits := by
  unfold decimalValue
  induction digits using List.reverseRecOn with
  | nil => rfl
  | append_singleton ds d ih =>
    rw [List.foldl_append, List.foldl_cons, List.foldl_nil, ih, List.reverse_append,
      List.reverse_singleton, List.singleton_append, List.map_cons, Nat.ofDigits_cons]
    ring

/-- The conversion of a run of digits: its decimal value when it fits an
`int`. -/
theorem lexicalCastInt_eq (digits : List Char) :
    lexicalCastInt digits =
      if decimalValue digits ≤ 2147483647 then some (decimalValue digits : Int) else none := by
  unfold lexicalCastInt
  simp only [foldl_digits_eq_decimalValue]

/-- The match of the pattern on a string of the datatype shape starts at its
first character and takes the whole string. -/
theorem searchDataType_shape (c1 c2 : Char) (digits suffix : List Char)
    (hshape : isDataTypeShape c1 c2 digits suffix = true) :
    searchDataType (c1 :: c2 :: (digits ++ suffix)) =
      some { m1 := c1, m2 := c2, m3 := digits, m4 := suffix } := by
  simp only [isDataTypeShape, Bool.and_eq_true, Bool.or_eq_true, beq_iff_eq,
    Bool.not_eq_true', List.all_eq_true] at hshape
  obtain ⟨⟨⟨⟨h1, h2⟩, hne⟩, hall⟩, hsuf⟩ := hshape
  have hw1 : isWordChar c1 = true := by rcases h1 with h | h <;> subst h <;> decide
  have hw2 : isWordChar c2 = true := by rcases h2 with (h | h) | h <;> subst h <;> decide
  have htake : (digits ++ suffix).takeWhile Char.isDigit = digits := by
    rw [List.takeWhile_append_of_pos hall]
    rcases hsuf with (h | h) | h <;> subst h <;> simp [List.takeWhile]
  have hdrop : (digits ++ suffix).dropWhile Char.isDigit = suffix := by
    rw [List.dropWhile_append_of_pos hall]
    rcases hsuf with (h | h) | h <;> subst h <;> simp [List.dropWhile]
  have hmatch : matchDataTypeAt (c1 :: c2 :: (digits ++ suffix)) =
      some { m1 := c1, m2 := c2, m3 := digits, m4 := suffix } := by
    simp only [matchDataTypeAt, hw1, hw2, htake, hdrop, hne, Bool.and_self, if_true]
    rcases hsuf with (h | h) | h <;> subst h <;> simp <;> decide
  rw [searchDataType, hmatch]


/-- Counterexample to C22 as stated: `cf2147483648` has the datatype shape
and writes the bit width 2147483648, which does not fit an `int`; the
conversion fails and `analyzeDataType` stores the sample width 32. -/
theorem analyzeDataType_width_beyond_int :
    isDataTypeShape 'c' 'f' "2147483648".toList [] = true ∧
    decimalValue "2147483648".toList = 2147483648 ∧
    (analyzeDataType "cf2147483648" {}).m_sampleBits = 32 := by
  decide

/-- C22, amended: on every datatype string of the shape
`[c|r][f|i|u]<bits>[_be|_le]`, `analyzeDataType` sets complex iff the first
letter is `c`, floating point iff the second letter is `f`, signed iff the
second letter is `f` or `i`, big endian iff the suffix is `_be`, and the sample
width to the decimal bit width when it fits an `int` (at most 2147483647) and
to 32 otherwise; `m_swapIQ` is not touched. -/
theorem analyzeDataType_shape (c1 c2 : Char) (digits suffix : List Char)
    (dataType : SigMFFileDataType)
    (hshape : isDataTypeShape c1 c2 digits suffix = true) :
    analyzeDataType (String.mk (c1 :: c2 :: (digits ++ suffix))) dataType =
      { m_complex := (c1 == 'c')
        m_floatingPoint := (c2 == 'f')
        m_signed := (c2 == 'f' || c2 == 'i')
        m_bigEndian := (suffix == ['_', 'b', 'e'])
        m_swapIQ := dataType.m_swapIQ
        m_sampleBits :=
          if decimalValue digits ≤ 2147483647 then (decimalValue digits : Int) else 32 } := by
  have hs := searchDataType_shape c1 c2 digits suffix hshape
  unfold analyzeDataType
  simp only [String.toList, hs, lexicalCastInt_eq]
  by_cases hfit : decimalValue digits ≤ 2147483647
  · simp [hfit]
  · simp [hfit]

/-- Witness of C22, amended: `cf32_le` is complex, floating point, signed,
32 bits wide and not big endian. -/
theorem analyzeDataType_shape_witness :
    isDataTypeShape 'c' 'f' ['3', '2'] ['_', 'l', 'e'] = true ∧
    analyzeDataType "cf32_le" {} =
      { m_complex := true, m_floatingPoint := true, m_signed := true, m_bigEndian := false,
        m_swapIQ := false, m_sampleBits := 32 } :=
  ⟨by decide,
    (analyzeDataType_shape 'c' 'f' ['3', '2'] ['_', 'l', 'e'] {} (by decide)).trans (by decide)⟩

/-- C23: the datatype string `float` has no match of the pattern, and
`analyzeDataType` leaves the datatype record as it was: after a record of
datatype `ci16_le`, the sample width is still 16 and not 32. -/
theorem analyzeDataType_no_match_keeps_width :
    searchDataType "float".toList = none ∧
    (analyzeDataType "ci16_le" {}).m_sampleBits = 16 ∧
    analyzeDataType "float" (analyzeDataType "ci16_le" {}) = analyzeDataType "ci16_le" {} ∧
    (analyzeDataType "float" (analyzeDataType "ci16_le" {})).m_sampleBits ≠ 32 := by
  decide

/-! ## Metadata: the byte stride and the total number of samples -/

/-- C25: a controller started at the factor 1 (48000 samples per second, 8
bytes per sample, FIFO of 384000 bytes) is given the factor 2: the worker gets
the factor 2 but the FIFO is sized with the stored factor 1, 384000 bytes and
not `2 * 48000 * 8 = 768000`; the size for the factor 2 comes only with the
next change, to the factor 3. -/
theorem applySettings_fifo_former_factor :
    ((start { m_settings := ⟨"", 1, false, false⟩, m_dataStreamOpen := true } 8 true).2
      ).m_sampleFifoSize = 384000 ∧
    (applySettings
        (start { m_settings := ⟨"", 1, false, false⟩, m_dataStreamOpen := true } 8 true).2
        ⟨"", 2, false, false⟩ false
        (fun _ => { dataOpen := false, dataFileSize := 0, metaRecord := {}, dataSha512 := "" })
        8 true).map
      (fun p => (p.2.1.m_sampleFifoSize, p.2.1.m_settings.m_accelerationFactor,
        p.2.1.m_fileInputThread.map (·.m_accelerationFactor))) = some (384000, 2, some 2) ∧
    ((applySettings
        (start { m_settings := ⟨"", 1, false, false⟩, m_dataStreamOpen := true } 8 true).2
        ⟨"", 2, false, false⟩ false
        (fun _ => { dataOpen := false, dataFileSize := 0, metaRecord := {}, dataSha512 := "" })
        8 true).bind
      (fun p => applySettings p.2.1 ⟨"", 3, false, false⟩ false
        (fun _ => { dataOpen := false, dataFileSize := 0, metaRecord := {}, dataSha512 := "" })
        8 true)).map
      (fun p => (p.2.1.m_sampleFifoSize,
        p.2.1.m_fileInputThread.map (·.m_accelerationFactor))) = some (768000, some 3) ∧
    (384000 : Nat) ≠ 2 * 48000 * 8 := by
  decide

/-! ## Timeline construction: a second record in the same session -/

/-- C26: a record with the starts `[0, 1000]` and then a record with the
starts `[0, 2000, 3000]` go through `extractCaptures` on the same controller.
After the second call there are three captures and five entries in
`m_captureStarts`, `[0, 1000, 0, 2000, 3000]`: entry 1 is 1000 while capture 1
starts at 2000. -/
theorem extractCaptures_second_record_starts :
    ((extractCaptures { m_settings := ⟨"", 1, false, false⟩, m_totalSamples := 5000 }
        { global_sample_rate := 1000
          captures := [{ sample_start := 0, length := 0 }, { sample_start := 1000, length := 0 }] }
      ).bind
      (fun s1 => extractCaptures s1
        { global_sample_rate := 1000
          captures := [{ sample_start := 0, length := 0 }, { sample_start := 2000, length := 0 },
            { sample_start := 3000, length := 0 }] })).map
      (fun s => (s.m_captures.map (·.m_sampleStart), s.m_captureStarts)) =
        some ([0, 2000, 3000], [0, 1000, 0, 2000, 3000]) ∧
    ([0, 1000, 0, 2000, 3000] : List Nat).length ≠ ([0, 2000, 3000] : List Nat).length := by
  decide

/-! ## Timeline construction: the order of the cumulative times -/

/-- Counterexample to C27 as stated: three captures of `10^16` samples at 1
sample per second. Each lasts `10^19` ms; the sum of two durations exceeds
`2^64` and wraps, so the cumulative times are `0`, `10^19` and
`1553255926290448384`: the third is below the second. -/
theorem extractCaptures_cumulativeTime_wraps :
    (extractCaptures { m_settings := ⟨"", 1, false, false⟩, m_totalSamples := 30000000000000000 }
        { global_sample_rate := 1
          captures :=
            [{ sample_start := 0, length := 10000000000000000 },
             { sample_start := 10000000000000000, length := 10000000000000000 },
             { sample_start := 20000000000000000, length := 10000000000000000 }] }).map
      (fun s => s.m_captures.map (·.m_cumulativeTime)) =
        some [0, 10000000000000000000, 1553255926290448384] ∧
    (1553255926290448384 : Nat) < 10000000000000000000 := by
  decide

/-- C27, amended: for every non-empty list of captures whose stored sample
rates are not zero and whose durations `(length * 1000) / sampleRate`, on the
declared lengths, have a sum below `2^64` when the last capture is left out,
`extractCaptures` succeeds and the cumulative times of the captures are
ascending in the order of the captures. -/
theorem extractCaptures_cumulativeTime_mono (self : SigMFFileInput) (metaRecord : MetaRecord)
    (hne : metaRecord.captures ≠ [])
    (hrate : ∀ c ∈ metaRecord.captures,
      captureSampleRate metaRecord.global_sample_rate c ≠ 0)
    (hsum : (metaRecord.captures.dropLast.map (fun d =>
      mulU64 d.length 1000 / captureSampleRate metaRecord.global_sample_rate d)).sum < U64) :
    ∃ self', extractCaptures self metaRecord = some self' ∧
      self'.m_captures.length = metaRecord.captures.length ∧
      (self'.m_captures.map (·.m_cumulativeTime)).Pairwise (· ≤ ·) := by
  obtain ⟨self', h1, hrates, _, hmono⟩ := extractCaptures_of_rates self metaRecord hne hrate
  refine ⟨self', h1, ?_, hmono hsum⟩
  have := congrArg List.length hrates
  simpa using this

/-- Witness of C27, amended: two captures of `10^16` samples at 1 sample per
second, of which each lasts `10^19` ms: the durations of both exceed `2^64`
together, the duration of the first alone does not, and the cumulative times
are `[0, 10^19]`. -/
theorem extractCaptures_cumulativeTime_mono_witness :
    (∃ self', extractCaptures
        { m_settings := ⟨"", 1, false, false⟩, m_totalSamples := 20000000000000000 }
        { global_sample_rate := 1
          captures :=
            [{ sample_start := 0, length := 10000000000000000 },
             { sample_start := 10000000000000000, length := 10000000000000000 }] }
          = some self' ∧
      self'.m_captures.length = 2 ∧
      (self'.m_captures.map (·.m_cumulativeTime)).Pairwise (· ≤ ·)) ∧
    (extractCaptures
        { m_settings := ⟨"", 1, false, false⟩, m_totalSamples := 20000000000000000 }
        { global_sample_rate := 1
          captures :=
            [{ sample_start := 0, length := 10000000000000000 },
             { sample_start := 10000000000000000, length := 10000000000000000 }] }).map
      (fun s => s.m_captures.map (·.m_cumulativeTime)) = some [0, 10000000000000000000] :=
  ⟨extractCaptures_cumulativeTime_mono
      { m_settings := ⟨"", 1, false, false⟩, m_totalSamples := 20000000000000000 }
      { global_sample_rate := 1
        captures :=
          [{ sample_start := 0, length := 10000000000000000 },
           { sample_start := 10000000000000000, length := 10000000000000000 }] }
      (by decide) (by decide) (by decide),
    by decide⟩

/-! ## Opening a record: the record-length check with an undeclared last length -/

/-- Adding back in `uint64_t` what was subtracted in `uint64_t` gives the
value started from, also when the subtraction wrapped. -/
theorem addU64_subU64 (start total : Nat) (htotal : total < U64) :
    addU64 start (subU64 total start) = total := by
  unfold addU64 subU64
  simp only [U64] at *
  omega

/-- C28: when the data file opens and the record loads (non-zero byte stride,
no capture with a stored rate of zero) and the last capture declares the
length 0, `openFileStreams` returns, and whenever it returns `true` the
record-length flag is set, for every size of the data file and every start of
the last capture; it returns `true` when no digest is declared or the declared
digest is that of the data file. -/
theorem openFileStreams_length_check_unknown_last (self : SigMFFileInput) (files : RecordFiles)
    (last : CaptureDescr)
    (hopen : files.dataOpen = true)
    (hstride :
      bitsToBytes (analyzeDataType files.metaRecord.datatype self.m_dataType).m_sampleBits ≠ 0)
    (hrate : ∀ c ∈ files.metaRecord.captures,
      captureSampleRate files.metaRecord.global_sample_rate c ≠ 0)
    (hsize : files.dataFileSize < U64)
    (hlast : files.metaRecord.captures.getLast? = some last)
    (hlen : last.length = 0) :
    ∃ r s', openFileStreams self files = some (r, s') ∧
      (r = true → s'.m_recordLengthOK = true) ∧
      (files.metaRecord.sha512 = "" ∨ files.metaRecord.sha512 = files.dataSha512 →
        r = true) := by
  have hne : files.metaRecord.captures ≠ [] := by
    intro hnil
    rw [hnil] at hlast
    exact absurd hlast (by simp)
  obtain ⟨s1, hmeta, _, _, _, htotal, _, _⟩ :=
    extractMeta_some { self with m_dataStreamOpen := true, m_dataStreamPos := files.dataFileSize }
      files.metaRecord files.dataFileSize hstride
  have htot1 : s1.m_totalSamples < U64 :=
    lt_of_le_of_lt (by rw [htotal]; exact Nat.div_le_self _ _) hsize
  obtain ⟨s2, hcap, _, hback, _⟩ := extractCaptures_of_rates s1 files.metaRecord hne hrate
  obtain ⟨back, hb, hbs, hbl⟩ := hback last hlast
  rw [if_pos hlen] at hbl
  obtain ⟨⟨caps, starts, hshape⟩, back', hb', hrate'⟩ :=
    extractCaptures_shape s1 s2 files.metaRecord hcap
  have hbb : back' = back := by
    rw [hb] at hb'
    exact (Option.some.inj hb').symm
  subst hbb
  have htot2 : s2.m_totalSamples = s1.m_totalSamples := by rw [hshape]
  have hsha : s2.m_sha512 = files.metaRecord.sha512 := by
    rw [hshape]
    exact (extractMeta_frame _ _ _ _ hmeta).1
  have hcheck : s2.m_totalSamples = addU64 back'.m_sampleStart back'.m_length := by
    rw [hbl, hbs, htot2, addU64_subU64 _ _ htot1]
  cases hres : openFileStreams self files with
  | none =>
    exfalso
    unfold openFileStreams at hres
    simp only [hopen, hmeta, hcap, hb, hrate'] at hres
    by_cases hl : s2.m_sha512.length = 0
    · simp [hl] at hres
    · simp [hl] at hres
      split at hres <;> simp at hres
  | some p =>
    obtain ⟨r, s'⟩ := p
    refine ⟨r, s', rfl, ?_⟩
    unfold openFileStreams at hres
    simp only [hopen, hmeta, hcap, hb, hrate'] at hres
    by_cases hl : s2.m_sha512.length = 0
    · simp [hl] at hres
      obtain ⟨hr, hs'⟩ := hres
      subst hr
      subst hs'
      exact ⟨fun _ => by simp [hcheck], fun _ => rfl⟩
    · have hs : files.metaRecord.sha512 ≠ "" := by
        rw [← hsha]
        intro h0
        exact hl ((string_length_eq_zero _).mpr h0)
      simp [hl] at hres
      split at hres
      · simp at hres
        obtain ⟨hr, hs'⟩ := hres
        subst hr
        subst hs'
        exact ⟨fun _ => by simp [hcheck], fun _ => rfl⟩
      · rename_i hd
        have hd' : files.metaRecord.sha512 ≠ files.dataSha512 := hsha ▸ hd
        simp at hres
        obtain ⟨hr, hs'⟩ := hres
        subst hr
        subst hs'
        refine ⟨fun h => absurd h (by simp), fun h => ?_⟩
        rcases h with h | h
        · exact absurd h hs
        · exact absurd h hd'

/-- Witness of C28: a data file of 4000 bytes at 16 bits, that is 1000
samples, whose only capture starts at sample 5000, beyond the end, and
declares the length 0: the open succeeds and the record-length flag is set. -/
theorem openFileStreams_length_check_unknown_last_witness :
    ∃ s', openFileStreams { m_settings := ⟨"", 1, false, false⟩ }
        { dataOpen := true, dataFileSize := 4000, dataSha512 := "bb"
          metaRecord :=
            { global_sample_rate := 1000000, datatype := "ci16_le", sha512 := ""
              captures := [{ sample_start := 5000, length := 0 }] } } = some (true, s') ∧
      s'.m_recordLengthOK = true := by
  obtain ⟨r, s', h1, h2, h3⟩ :=
    openFileStreams_length_check_unknown_last { m_settings := ⟨"", 1, false, false⟩ }
      { dataOpen := true, dataFileSize := 4000, dataSha512 := "bb"
        metaRecord :=
          { global_sample_rate := 1000000, datatype := "ci16_le", sha512 := ""
            captures := [{ sample_start := 5000, length := 0 }] } }
      { sample_start := 5000, length := 0 } rfl (by decide) (by decide) (by decide) rfl rfl
  have hr : r = true := h3 (Or.inl rfl)
  subst hr
  exact ⟨s', h1, h2 rfl⟩

/-! ## Settings: the key and the change test of the full loop -/

/-- C29: the key list `["fullLoop"]` with the value 1 on settings whose two
loop flags are off sets `m_trackLoop` and leaves `m_fullLoop` off; and
`applySettings` on stored settings with the track loop on records `fullLoop`
when the full loop is unchanged (off to off) and does not record it when the
full loop changes (off to on). -/
theorem webapiUpdateDeviceSettings_fullLoop_key :
    webapiUpdateDeviceSettings ⟨"a", 1, false, false⟩ ["fullLoop"] { full_loop := 1 } =
      ⟨"a", 1, true, false⟩ ∧
    (applySettings { m_settings := ⟨"a", 1, true, false⟩ } ⟨"a", 1, true, false⟩ false
        (fun _ => { dataOpen := false, dataFileSize := 0, metaRecord := {}, dataSha512 := "" })
        8 true).map (fun p => p.2.2) = some ["fullLoop"] ∧
    (applySettings { m_settings := ⟨"a", 1, true, false⟩ } ⟨"a", 1, true, true⟩ false
        (fun _ => { dataOpen := false, dataFileSize := 0, metaRecord := {}, dataSha512 := "" })
        8 true).map (fun p => p.2.2) = some [] := by
  decide

end SigMF
